import Mathlib

/-!
Verification of the core analysis pipeline of the AI-Stock-Moon-Dashboard
repository: the temporal aligner (`src/data_alignment.py`), the metrics
engine (`src/metrics_calculator.py`) and the statistical engine
(`src/statistical_analyzer.py`).

The Python code is shallowly embedded:
* `datetime.date` values are embedded as day numbers (`ℤ`, days since
  1970-01-01); `datetime.datetime` values as a wall clock in minutes
  together with an optional fixed UTC offset (`tzinfo`).
* Python floats are embedded as `ℚ` where the code only performs field
  arithmetic and comparisons, and as `ℝ` where it takes square roots,
  logarithms or exponentials (`np.std`, the Fisher transform).
* scipy/numpy statistical primitives (`pearsonr`, `spearmanr`,
  `f_oneway`, `ttest_ind`, `mannwhitneyu`, `stats.norm.ppf`,
  `stats.skew`, `stats.kurtosis`, `np.corrcoef`) are external library
  collaborators, not repository code; they are passed in as an explicit
  `ExternalStats` record of function parameters, mirroring how the spec
  treats them as given statistical primitives.
* fallible code returns `Except` / `Option`.
-/

namespace StockMoon

/-! ## Dates

A `datetime.date` is embedded as its day number: days since 1970-01-01.
`daysFromCivil` converts a civil `(year, month, day)` triple to its day
number (the standard civil-calendar algorithm, valid for years ≥ 1); it is
how date literals such as `datetime(year, 1, 1).date()` are written. -/

def daysFromCivil (y m d : ℕ) : ℤ :=
  let y2 := if m ≤ 2 then y - 1 else y
  let era := y2 / 400
  let yoe := y2 % 400
  let mp := (m + 9) % 12
  let doy := (153 * mp + 2) / 5 + (d - 1)
  let doe := yoe * 365 + yoe / 4 - yoe / 100 + doy
  (era * 146097 + doe : ℤ) - 719468

/-- Python's `date.weekday()`: Monday = 0 … Sunday = 6.
1970-01-01 (day number 0) was a Thursday (= 3). -/
def pyWeekday (d : ℤ) : ℤ := (d + 3).emod 7

/-! ## Timestamps and timezones

A `datetime.datetime` carries a wall clock (minutes since the epoch, as
displayed) and `tzinfo`: `none` models a naive timestamp, `some z` models
a fixed offset of `z` minutes east of UTC (`timezone.utc` is `some 0`). -/

structure DateTime where
  clock : ℤ
  tz : Option ℤ
deriving DecidableEq, Repr

/-- `datetime.date()`: the civil date of the wall clock. -/
def DateTime.dateOf (dt : DateTime) : ℤ := dt.clock.ediv 1440

/-- `DataAligner._normalize_datetime_to_utc`: naive timestamps are assumed
to already be UTC and are retagged; aware non-UTC timestamps are converted
with `astimezone` (which shifts the wall clock by the offset). -/
def normalize_datetime_to_utc (dt : DateTime) : DateTime :=
  match dt.tz with
  | none => ⟨dt.clock, some 0⟩
  | some z => if z = 0 then dt else ⟨dt.clock - z, some 0⟩

/-! ## Entity model (`src/data_models.py`) -/

inductive MoonPhase where
  | NEW | WAXING_CRESCENT | FIRST_QUARTER | WAXING_GIBBOUS
  | FULL | WANING_GIBBOUS | LAST_QUARTER | WANING_CRESCENT
deriving DecidableEq, Repr

/-- The eight phases, in `IntEnum` order (iteration order of `for phase in MoonPhase`). -/
def allPhases : List MoonPhase :=
  [.NEW, .WAXING_CRESCENT, .FIRST_QUARTER, .WAXING_GIBBOUS,
   .FULL, .WANING_GIBBOUS, .LAST_QUARTER, .WANING_CRESCENT]

structure StockData where
  date : DateTime
  open_ : ℚ
  high : ℚ
  low : ℚ
  close : ℚ
  volume : ℤ
  daily_return : Option ℚ := none
  abs_return : Option ℚ := none
  volatility_7d : Option ℝ := none

structure MoonData where
  date : DateTime
  phase_code : MoonPhase
  illumination : ℚ
  days_from_full_moon : ℤ
  is_full_moon_window : Bool

structure CombinedDataPoint where
  date : DateTime
  open_ : ℚ
  high : ℚ
  low : ℚ
  close : ℚ
  volume : ℤ
  daily_return : Option ℚ := none
  abs_return : Option ℚ := none
  volatility_7d : Option ℝ := none
  phase_code : MoonPhase := .NEW
  illumination : ℚ := 0
  days_from_full_moon : ℤ := 0
  is_full_moon_window : Bool := false
  trading_day : Bool := true
  anomaly_score : Option ℚ := none

/-- `StockData.is_trading_day`: weekday check only. -/
def StockData.is_trading_day (s : StockData) : Bool :=
  pyWeekday s.date.dateOf < 5

/-- `DataFactory.create_combined_data_point`. -/
def create_combined_data_point (s : StockData) (m : MoonData) : CombinedDataPoint :=
  { date := s.date
    open_ := s.open_
    high := s.high
    low := s.low
    close := s.close
    volume := s.volume
    daily_return := s.daily_return
    abs_return := s.abs_return
    volatility_7d := s.volatility_7d
    phase_code := m.phase_code
    illumination := m.illumination
    days_from_full_moon := m.days_from_full_moon
    is_full_moon_window := m.is_full_moon_window
    trading_day := s.is_trading_day
    anomaly_score := none }

/-! ## Market holidays and trading days (`DataAligner`) -/

/-- `DataAligner._get_nth_weekday(year, month, weekday, n)`: the nth
occurrence of a weekday in a month, via
`first_day + (weekday - first_day.weekday()) % 7 + 7*(n-1)` days
(`timedelta` arithmetic is day-number arithmetic). -/
def get_nth_weekday (year month weekday n : ℕ) : ℤ :=
  let first_day := daysFromCivil year month 1
  let first_weekday := pyWeekday first_day
  let days_to_add := ((weekday : ℤ) - first_weekday).emod 7
  first_day + days_to_add + 7 * ((n : ℤ) - 1)

/-- `DataAligner._get_market_holidays`: New Year's Day, Independence Day,
Christmas Day, Thanksgiving (4th Thursday of November) and the day after,
for the fixed year range `range(2023, 2026)` only. -/
def market_holidays : List ℤ :=
  (List.range' 2023 3).flatMap fun year =>
    let thanksgiving := get_nth_weekday year 11 3 4
    [daysFromCivil year 1 1, daysFromCivil year 7 4, daysFromCivil year 12 25,
     thanksgiving, thanksgiving + 1]

/-- `DataAligner._is_trading_day`: a weekday that is not a market holiday. -/
def is_trading_day (d : ℤ) : Bool :=
  if 5 ≤ pyWeekday d then false
  else if d ∈ market_holidays then false
  else true

/-! ## The temporal aligner (`DataAligner`)

Python dicts built by `{key(x): x for x in l}` are embedded by keeping the
list and looking a key up as the LAST list element with that key
(later comprehension entries overwrite earlier ones). -/

def dict_lookup {α : Type} (key : α → ℤ) (l : List α) (k : ℤ) : Option α :=
  (l.filter (fun s => key s == k)).getLast?

def stockKey (s : StockData) : ℤ := s.date.dateOf
def moonKey (m : MoonData) : ℤ := m.date.dateOf

/-- `DataAligner.normalize_timestamps_to_utc`: rebuilds every record with a
normalized timestamp. -/
def normalize_timestamps_to_utc (stock : List StockData) (moon : List MoonData) :
    List StockData × List MoonData :=
  (stock.map (fun s => { s with date := normalize_datetime_to_utc s.date }),
   moon.map (fun m => { m with date := normalize_datetime_to_utc m.date }))

/-- `DataAligner._find_closest_moon_data`: exact date first, then offsets
1, 2, 3 — previous day before next day at each offset. -/
def find_closest_moon_data (d : ℤ) (norm_moon : List MoonData) : Option MoonData :=
  match dict_lookup moonKey norm_moon d with
  | some m => some m
  | none =>
    ([1, 2, 3] : List ℤ).findSome? fun offset =>
      match dict_lookup moonKey norm_moon (d - offset) with
      | some m => some m
      | none => dict_lookup moonKey norm_moon (d + offset)

/-- Comparison of embedded `datetime` values: aware datetimes compare by
instant (wall clock minus offset); a naive one is treated as UTC (after
normalization every timestamp is UTC, making this the wall clock). -/
def dateLe (a b : DateTime) : Prop :=
  a.clock - a.tz.getD 0 ≤ b.clock - b.tz.getD 0

instance : DecidableRel dateLe := fun _a _b => Int.decLe _ _

/-- Sort key of the final `filled_data.sort(key=lambda x: x.date)`. -/
def dtLe (a b : CombinedDataPoint) : Prop := dateLe a.date b.date

instance : DecidableRel dtLe := fun a b => inferInstanceAs (Decidable (dateLe a.date b.date))

instance : IsTotal DateTime dateLe := ⟨fun _ _ => Int.le_total _ _⟩

instance : IsTrans DateTime dateLe := ⟨fun _ _ _ hab hbc => Int.le_trans hab hbc⟩

instance : IsTotal CombinedDataPoint dtLe := ⟨fun _ _ => Int.le_total _ _⟩

instance : IsTrans CombinedDataPoint dtLe := ⟨fun _ _ _ hab hbc => Int.le_trans hab hbc⟩

/-- The tradable dates in `[start_date, end_date]` (the `while` loop of
`_fill_missing_trading_days`). -/
def allTradingDays (start_date end_date : ℤ) : List ℤ :=
  ((List.range (end_date - start_date + 1).toNat).map (fun i : ℕ => start_date + (i : ℤ))).filter
    is_trading_day

/-- The loop body of `_fill_missing_trading_days`: a missing date is
filled when it has a stock record and a moon record within ±3 days. -/
def fillOne (norm_stock : List StockData) (norm_moon : List MoonData) (d : ℤ) :
    Option CombinedDataPoint :=
  match dict_lookup stockKey norm_stock d with
  | some s =>
    match find_closest_moon_data d norm_moon with
    | some m => some (create_combined_data_point s m)
    | none => none
  | none => none

/-- `DataAligner._fill_missing_trading_days`: enumerate the tradable dates
between the earliest and latest combined date, fill each one missing from
the result, then sort by timestamp. -/
def fill_missing_trading_days (combined : List CombinedDataPoint)
    (norm_stock : List StockData) (norm_moon : List MoonData) : List CombinedDataPoint :=
  if combined.isEmpty then combined else
  let dates := combined.map (fun p => p.date.dateOf)
  let missing_dates :=
    (allTradingDays (dates.min?.getD 0) (dates.max?.getD 0)).filter
      (fun d => ¬ dates.contains d)
  if missing_dates.isEmpty then combined
  else List.insertionSort dtLe (combined ++ missing_dates.filterMap (fillOne norm_stock norm_moon))

/-- The loop body of the join in `align_data_by_trading_dates`: a common
date is emitted iff it is a trading day. -/
def joinOne (norm_stock : List StockData) (norm_moon : List MoonData) (d : ℤ) :
    Option CombinedDataPoint :=
  match dict_lookup stockKey norm_stock d, dict_lookup moonKey norm_moon d with
  | some s, some m =>
    if is_trading_day d then some (create_combined_data_point s m) else none
  | _, _ => none

/-- `DataAligner.align_data_by_trading_dates`: normalize, join on common
dates keeping only trading days, then gap-fill.  Raises
`ValidationError` (embedded as `Except.error` with the code's message)
exactly when the raw date intersection is empty. -/
def align_data_by_trading_dates (stock : List StockData) (moon : List MoonData) :
    Except String (List CombinedDataPoint) :=
  let norm := normalize_timestamps_to_utc stock moon
  let norm_stock := norm.1
  let norm_moon := norm.2
  let stock_dates := (norm_stock.map stockKey).dedup
  let moon_dates := (norm_moon.map moonKey).dedup
  let common_dates := stock_dates.filter (fun d => decide (d ∈ moon_dates))
  if common_dates.isEmpty then
    .error "No overlapping dates found between stock and moon data"
  else
    let sorted_common := List.insertionSort (· ≤ ·) common_dates
    .ok (fill_missing_trading_days (sorted_common.filterMap (joinOne norm_stock norm_moon))
      norm_stock norm_moon)

/-- `validate_data_alignment`: chronological order, no duplicate
timestamps, at most one timezone. -/
def validate_data_alignment (combined : List CombinedDataPoint) : Bool :=
  if combined.isEmpty then false
  else
    let dates := combined.map (·.date)
    if dates ≠ List.insertionSort dateLe dates then false
    else if (dates.dedup).length ≠ dates.length then false
    else if 1 < ((combined.map (fun p => p.date.tz)).dedup).length then false
    else true

/-! ## The metrics engine (`src/metrics_calculator.py`)

`np.mean` and `np.std(·, ddof=1)` over exact rationals: the sample
standard deviation is the square root (in `ℝ`) of the rational sample
variance. -/

def listMean (l : List ℚ) : ℚ := l.sum / l.length

/-- Sample variance, divisor `n - 1`. -/
def sampleVar (l : List ℚ) : ℚ :=
  ((l.map (fun x => (x - listMean l) ^ 2)).sum) / ((l.length : ℚ) - 1)

/-- `np.std(l, ddof=1)`: the sample standard deviation. -/
noncomputable def sampleStd (l : List ℚ) : ℝ := Real.sqrt (sampleVar l)

/-- `StockMetricsCalculator.calculate_daily_return`. -/
def calculate_daily_return (current_price previous_price : ℚ) : ℚ :=
  if previous_price ≤ 0 then 0
  else ((current_price - previous_price) / previous_price) * 100

/-- `data_points[i].close`; indices are in range at every use site. -/
def closeAt (data : List CombinedDataPoint) (i : ℕ) : ℚ :=
  ((data.get? i).map (·.close)).getD 0

/-- `StockMetricsCalculator.calculate_rolling_volatility`: `None` below the
window or with fewer than 2 returns, else the sample standard deviation of
the returns recomputed over `range(max(0, i - w + 1), i + 1)` skipping
index 0.  (`i + 1 - w` in `ℕ` is exactly `max(0, i - w + 1)`.) -/
noncomputable def calculate_rolling_volatility (data : List CombinedDataPoint)
    (current_index window_size : ℕ) : Option ℝ :=
  if current_index < window_size then none
  else
    let lo := current_index + 1 - window_size
    let returns := ((List.range' lo (current_index + 1 - lo)).filter (fun j => 0 < j)).map
      (fun j => calculate_daily_return (closeAt data j) (closeAt data (j - 1)))
    if returns.length < 2 then none else some (sampleStd returns)

/-- `StockMetricsCalculator.calculate_stock_metrics`: returns the input
unchanged when it has fewer than 2 points, else rebuilds every point with
daily return (0 at index 0), absolute return and rolling volatility. -/
noncomputable def calculate_stock_metrics (data : List CombinedDataPoint)
    (rolling_window : ℕ) : List CombinedDataPoint :=
  if data.length < 2 then data else
  data.mapIdx fun i point =>
    let daily_return :=
      if 0 < i then calculate_daily_return point.close (closeAt data (i - 1)) else 0
    { point with
        daily_return := some daily_return
        abs_return := some |daily_return|
        volatility_7d := calculate_rolling_volatility data i rolling_window }

/-! ## The statistical engine (`src/statistical_analyzer.py`)

scipy/numpy hypothesis-test primitives are external collaborators (the
spec treats them as given); they enter as an `ExternalStats` record of
function parameters.  Their float outputs are embedded as `ℚ` (every
float is a rational); metric values that may carry square roots
(volatility, pooled standard deviations) are `ℝ`. -/

structure ExternalStats where
  /-- `scipy.stats.pearsonr`: correlation coefficient and p-value. -/
  pearsonr : List ℝ → List ℝ → ℚ × ℚ
  /-- `scipy.stats.spearmanr`. -/
  spearmanr : List ℝ → List ℝ → ℚ × ℚ
  /-- `scipy.stats.f_oneway` applied to a list of groups. -/
  f_oneway : List (List ℝ) → ℚ × ℚ
  /-- `scipy.stats.ttest_ind`: statistic and two-sided p-value. -/
  ttest_ind : List ℝ → List ℝ → ℚ × ℚ
  /-- `scipy.stats.mannwhitneyu` (two-sided). -/
  mannwhitneyu : List ℝ → List ℝ → ℚ × ℚ
  /-- `scipy.stats.norm.ppf(0.975)`, the standard-normal critical value. -/
  norm_ppf_975 : ℝ
  /-- `scipy.stats.skew`. -/
  skew : List ℝ → ℚ
  /-- `scipy.stats.kurtosis`. -/
  kurtosis : List ℝ → ℚ
  /-- `np.corrcoef(x, y)[0, 1]`. -/
  corrcoef : List ℝ → List ℝ → ℚ

def castQ (l : List ℚ) : List ℝ := l.map (fun q => (q : ℝ))

noncomputable def rMean (l : List ℝ) : ℝ := l.sum / l.length

/-- `np.std(l, ddof=1)` over reals. -/
noncomputable def rSampleStd (l : List ℝ) : ℝ :=
  Real.sqrt (((l.map (fun x => (x - rMean l) ^ 2)).sum) / ((l.length : ℝ) - 1))

/-- `np.std(l)` (population, ddof = 0). -/
noncomputable def rPopStd (l : List ℝ) : ℝ :=
  Real.sqrt (((l.map (fun x => (x - rMean l) ^ 2)).sum) / (l.length : ℝ))

noncomputable def rMin : List ℝ → ℝ
  | [] => 0
  | x :: xs => xs.foldl min x

noncomputable def rMax : List ℝ → ℝ
  | [] => 0
  | x :: xs => xs.foldl max x

open Classical in
noncomputable def rSort (l : List ℝ) : List ℝ := List.insertionSort (· ≤ ·) l

/-- `np.median`. -/
noncomputable def rMedian (l : List ℝ) : ℝ :=
  let s := rSort l
  if l.length % 2 = 1 then s.getD (l.length / 2) 0
  else ((s.getD (l.length / 2 - 1) 0) + s.getD (l.length / 2) 0) / 2

structure StatisticalSummary where
  sample_size : ℕ
  mean : ℝ
  std : ℝ
  min_value : ℝ
  max_value : ℝ
  median : ℝ
  skewness : ℚ
  kurtosis : ℚ

/-- `StatisticalAnalyzer._calculate_summary_stats`; `none` embeds the
`ValueError` raised on an empty list. -/
noncomputable def calculate_summary_stats (ext : ExternalStats) (values : List ℝ) :
    Option StatisticalSummary :=
  if values.isEmpty then none
  else some
    { sample_size := values.length
      mean := rMean values
      std := rSampleStd values
      min_value := rMin values
      max_value := rMax values
      median := rMedian values
      skewness := ext.skew values
      kurtosis := ext.kurtosis values }

structure Summaries where
  daily_returns : Option StatisticalSummary
  volatility : Option StatisticalSummary
  moon_illumination : Option StatisticalSummary

/-- `StatisticalAnalyzer.generate_statistical_summaries`: returns and
volatility summaries only when the defined values are non-empty; the
illumination summary unconditionally (it covers every record). -/
noncomputable def generate_statistical_summaries (ext : ExternalStats)
    (data : List CombinedDataPoint) : Summaries :=
  let returns := castQ (data.filterMap (·.daily_return))
  let volatilities := data.filterMap (·.volatility_7d)
  let illuminations := castQ (data.map (·.illumination))
  { daily_returns := if returns.isEmpty then none else calculate_summary_stats ext returns
    volatility :=
      if volatilities.isEmpty then none else calculate_summary_stats ext volatilities
    moon_illumination := calculate_summary_stats ext illuminations }

/-! ### Correlation analysis (`CorrelationAnalyzer`) -/

structure CorrelationAnalysis where
  pearson_correlation : ℚ
  pearson_p_value : ℚ
  spearman_correlation : ℚ
  spearman_p_value : ℚ
  sample_size : ℕ
  confidence_interval_95 : ℝ × ℝ
  interpretation : String

/-- `CorrelationAnalyzer._correlation_confidence_interval`: Fisher
z-transform interval.  `zc` is the external critical value
`stats.norm.ppf(1 - alpha/2)`. -/
noncomputable def correlation_confidence_interval (zc : ℝ) (r : ℚ) (n : ℕ) : ℝ × ℝ :=
  if n < 4 then (0, 0)
  else
    let z : ℝ := 1 / 2 * Real.log ((1 + (r : ℝ)) / (1 - (r : ℝ)))
    let se : ℝ := 1 / Real.sqrt ((n : ℝ) - 3)
    let z_lower := z - zc * se
    let z_upper := z + zc * se
    ((Real.exp (2 * z_lower) - 1) / (Real.exp (2 * z_lower) + 1),
     (Real.exp (2 * z_upper) - 1) / (Real.exp (2 * z_upper) + 1))

/-- `CorrelationAnalyzer._interpret_correlation`. -/
def interpret_correlation (r p : ℚ) : String :=
  let strength :=
    if |r| < 1/10 then "negligible"
    else if |r| < 3/10 then "weak"
    else if |r| < 1/2 then "moderate"
    else if |r| < 7/10 then "strong"
    else "very strong"
  let direction := if 0 < r then "positive" else "negative"
  let significance := if p < 5/100 then "significant" else "not significant"
  strength ++ " " ++ direction ++ " correlation (" ++ significance ++ ")"

/-- `CorrelationAnalyzer._calculate_correlation`.  The `np.isfinite` mask
keeps every value (an embedded float is an exact rational/real, never NaN
or infinite), so `x_clean = x`. -/
noncomputable def calculate_correlation (ext : ExternalStats) (x y : List ℝ) :
    CorrelationAnalysis :=
  if x.length < 3 then
    { pearson_correlation := 0
      pearson_p_value := 1
      spearman_correlation := 0
      spearman_p_value := 1
      sample_size := x.length
      confidence_interval_95 := (0, 0)
      interpretation := "Insufficient data" }
  else
    let pe := ext.pearsonr x y
    let sp := ext.spearmanr x y
    { pearson_correlation := pe.1
      pearson_p_value := pe.2
      spearman_correlation := sp.1
      spearman_p_value := sp.2
      sample_size := x.length
      confidence_interval_95 := correlation_confidence_interval ext.norm_ppf_975 pe.1 x.length
      interpretation := interpret_correlation pe.1 pe.2 }

structure CorrelationsResult where
  returns_vs_illumination : Option CorrelationAnalysis
  returns_vs_days_from_full : Option CorrelationAnalysis
  volatility_vs_illumination : Option CorrelationAnalysis
  volatility_vs_days_from_full : Option CorrelationAnalysis
  abs_returns_vs_illumination : Option CorrelationAnalysis

/-- Records whose daily return is defined, paired with their moon operands
(the code's index-aligned array selection). -/
def returnsData (data : List CombinedDataPoint) : List (ℚ × ℚ × ℤ) :=
  data.filterMap fun p => p.daily_return.map (fun r => (r, p.illumination, p.days_from_full_moon))

/-- Records whose rolling volatility is defined, with their moon operands. -/
def volatilityData (data : List CombinedDataPoint) : List (ℝ × ℚ × ℤ) :=
  data.filterMap fun p => p.volatility_7d.map (fun v => (v, p.illumination, p.days_from_full_moon))

/-- Records whose absolute return is defined, with their illumination. -/
def absReturnsData (data : List CombinedDataPoint) : List (ℚ × ℚ) :=
  data.filterMap fun p => p.abs_return.map (fun r => (r, p.illumination))

/-- `CorrelationAnalyzer.analyze_correlations`: each metric/moon pair is
analyzed only when more than 10 records have the stock metric defined. -/
noncomputable def analyze_correlations (ext : ExternalStats)
    (data : List CombinedDataPoint) : CorrelationsResult :=
  let rd := returnsData data
  let vd := volatilityData data
  let ad := absReturnsData data
  { returns_vs_illumination :=
      if 10 < rd.length then
        some (calculate_correlation ext (castQ (rd.map (·.1))) (castQ (rd.map (·.2.1))))
      else none
    returns_vs_days_from_full :=
      if 10 < rd.length then
        some (calculate_correlation ext (castQ (rd.map (·.1)))
          (rd.map (fun t => ((t.2.2 : ℤ) : ℝ))))
      else none
    volatility_vs_illumination :=
      if 10 < vd.length then
        some (calculate_correlation ext (vd.map (·.1)) (castQ (vd.map (·.2.1))))
      else none
    volatility_vs_days_from_full :=
      if 10 < vd.length then
        some (calculate_correlation ext (vd.map (·.1)) (vd.map (fun t => ((t.2.2 : ℤ) : ℝ))))
      else none
    abs_returns_vs_illumination :=
      if 10 < ad.length then
        some (calculate_correlation ext (castQ (ad.map (·.1))) (castQ (ad.map (·.2))))
      else none }

/-! ### Phase analysis (`PhaseAnalyzer`) -/

/-- First-occurrence deduplication: iteration order of the keys of a
Python `defaultdict` built by appending. -/
def dedupFirst {α : Type} [DecidableEq α] (l : List α) : List α :=
  l.foldl (fun acc x => if x ∈ acc then acc else acc ++ [x]) []

structure PhaseMetric where
  phase : MoonPhase
  avg_volatility : ℝ
  green_day_percentage : ℚ
  mean_return : ℚ
  sample_count : ℕ

structure PhaseComparisonResult where
  phase_metrics : List PhaseMetric
  anova_f_statistic : ℚ
  anova_p_value : ℚ
  significant_differences : List (MoonPhase × MoonPhase × ℚ)

/-- Which of the code's two `return` statements `_perform_phase_anova`
took: the `(0.0, 1.0)` early exits, or the computed `f_oneway` pair. -/
inductive PhaseAnova where
  | default
  | computed (fp : ℚ × ℚ)
deriving DecidableEq

/-- The `(f, p)` pair the function actually returns. -/
def PhaseAnova.fp : PhaseAnova → ℚ × ℚ
  | .default => (0, 1)
  | .computed fp => fp

/-- The per-phase volatility groups, in first-occurrence key order, that
have at least 3 observations. -/
def qualifyingGroups (vbp : List (MoonPhase × ℝ)) : List (List ℝ) :=
  ((dedupFirst (vbp.map Prod.fst)).map
    (fun ph => (vbp.filter (fun pv => pv.1 = ph)).map Prod.snd)).filter
    (fun g => 3 ≤ g.length)

/-- `PhaseAnalyzer._perform_phase_anova`: `(0, 1)` when there are fewer
than 10 observations in total or fewer than 2 groups with ≥ 3
observations; otherwise `f_oneway` over the qualifying groups. -/
def perform_phase_anova (ext : ExternalStats) (vbp : List (MoonPhase × ℝ)) :
    PhaseAnova :=
  if vbp.length < 10 then .default
  else
    let groups := qualifyingGroups vbp
    if groups.length < 2 then .default
    else .computed (ext.f_oneway groups)

def pointsOfPhase (data : List CombinedDataPoint) (ph : MoonPhase) :
    List CombinedDataPoint :=
  data.filter (fun p => p.phase_code = ph)

/-- The defined volatilities of a phase's points (`phase_groups[phase]`
filtered to non-`None` `volatility_7d`). -/
def volsOfPhase (data : List CombinedDataPoint) (ph : MoonPhase) : List ℝ :=
  (pointsOfPhase data ph).filterMap (·.volatility_7d)

/-- Key order of `phase_groups` after `analyze_by_phases` has run: phases
appearing in the data (first-occurrence order), then — because reading a
`defaultdict` entry creates it — every remaining phase in enum order. -/
def phaseKeyOrder (data : List CombinedDataPoint) : List MoonPhase :=
  let present := dedupFirst (data.map (·.phase_code))
  present ++ allPhases.filter (fun ph => decide (ph ∉ present))

/-- One iteration of the pairwise loop: a t-test between two phases when
both have ≥ 3 volatility observations, recorded when the p-value is below
`0.05 / (k * (k-1) / 2)`, where `k = len(phases)` is the number of keys of
`phase_groups`. -/
def pairBody (ext : ExternalStats) (data : List CombinedDataPoint) (k : ℕ)
    (ph1 ph2 : MoonPhase) : List (MoonPhase × MoonPhase × ℚ) :=
  let vol1 := volsOfPhase data ph1
  let vol2 := volsOfPhase data ph2
  if 3 ≤ vol1.length ∧ 3 ≤ vol2.length then
    let p_value := (ext.ttest_ind vol1 vol2).2
    let corrected_alpha : ℚ := 5/100 / ((k : ℚ) * ((k : ℚ) - 1) / 2)
    if p_value < corrected_alpha then [(ph1, ph2, p_value)] else []
  else []

/-- `PhaseAnalyzer._pairwise_phase_comparisons`: all index pairs i < j
over the `phase_groups` keys. -/
def pairwise_phase_comparisons (ext : ExternalStats)
    (data : List CombinedDataPoint) : List (MoonPhase × MoonPhase × ℚ) :=
  let phases := phaseKeyOrder data
  (List.range phases.length).flatMap fun i =>
    (List.range' (i + 1) (phases.length - (i + 1))).flatMap fun j =>
      match phases[i]?, phases[j]? with
      | some ph1, some ph2 => pairBody ext data phases.length ph1 ph2
      | _, _ => []

/-- `PhaseAnalyzer.analyze_by_phases`. -/
noncomputable def analyze_by_phases (ext : ExternalStats)
    (data : List CombinedDataPoint) : PhaseComparisonResult :=
  let phase_metrics := allPhases.filterMap fun ph =>
    let points := pointsOfPhase data ph
    if points.isEmpty then none
    else
      let returns := points.filterMap (·.daily_return)
      let volatilities := points.filterMap (·.volatility_7d)
      let green_days := (returns.filter (fun r => 0 < r)).length
      let green_percentage : ℚ :=
        if returns.isEmpty then 0 else (green_days : ℚ) / (returns.length : ℚ) * 100
      some
        { phase := ph
          avg_volatility := if volatilities.isEmpty then 0 else rMean volatilities
          green_day_percentage := green_percentage
          mean_return := if returns.isEmpty then 0 else listMean returns
          sample_count := points.length }
  let volatility_by_phase :=
    allPhases.flatMap fun ph => (volsOfPhase data ph).map (fun v => (ph, v))
  let anova_fp := (perform_phase_anova ext volatility_by_phase).fp
  { phase_metrics := phase_metrics
    anova_f_statistic := anova_fp.1
    anova_p_value := anova_fp.2
    significant_differences :=
      if anova_fp.2 < 5/100 then pairwise_phase_comparisons ext data else [] }

/-! ### Group comparison, full-moon analysis (`StatisticalAnalyzer`) -/

structure GroupComparison where
  group1_mean : ℝ
  group1_std : ℝ
  group1_n : ℕ
  group2_mean : ℝ
  group2_std : ℝ
  group2_n : ℕ
  t_test : ℚ × ℚ
  mann_whitney : ℚ × ℚ
  effect_size : ℝ
  significant : Bool
  interpretation : String

open Classical in
/-- `StatisticalAnalyzer._interpret_effect_size`. -/
noncomputable def interpret_effect_size (d : ℝ) : String :=
  if |d| < 2/10 then "negligible effect"
  else if |d| < 5/10 then "small effect"
  else if |d| < 8/10 then "medium effect"
  else "large effect"

/-- The pooled standard deviation used for Cohen's d in
`StatisticalAnalyzer._compare_groups`. -/
noncomputable def pooledStd (group1 group2 : List ℝ) : ℝ :=
  Real.sqrt ((((group1.length : ℝ) - 1) * rSampleStd group1 ^ 2 +
      ((group2.length : ℝ) - 1) * rSampleStd group2 ^ 2) /
    ((group1.length : ℝ) + (group2.length : ℝ) - 2))

/-- `StatisticalAnalyzer._compare_groups` (`alpha = 0.05`); `none` embeds
the `{'error': ...}` result for groups below 3 observations.  Cohen's d
divides by the pooled standard deviation only when it is positive and is
0 otherwise. -/
noncomputable def compare_groups (ext : ExternalStats) (group1 group2 : List ℝ) :
    Option GroupComparison :=
  if group1.length < 3 ∨ group2.length < 3 then none
  else
    let mean1 := rMean group1
    let mean2 := rMean group2
    let t := ext.ttest_ind group1 group2
    let u := ext.mannwhitneyu group1 group2
    let pooled_std := pooledStd group1 group2
    let cohens_d := if 0 < pooled_std then (mean1 - mean2) / pooled_std else 0
    some
      { group1_mean := mean1
        group1_std := rSampleStd group1
        group1_n := group1.length
        group2_mean := mean2
        group2_std := rSampleStd group2
        group2_n := group2.length
        t_test := t
        mann_whitney := u
        effect_size := cohens_d
        significant := t.2 < 5/100
        interpretation := interpret_effect_size cohens_d }

inductive FullMoonAnalysis where
  | insufficient
  | result (full_moon_periods baseline_periods : ℕ)
      (return_comparison volatility_comparison : Option GroupComparison)

/-- `StatisticalAnalyzer.analyze_full_moon_effects`. -/
noncomputable def analyze_full_moon_effects (ext : ExternalStats)
    (data : List CombinedDataPoint) : FullMoonAnalysis :=
  let full_moon_data := data.filter (·.is_full_moon_window)
  let baseline_data := data.filter (fun p => ¬ p.is_full_moon_window)
  if full_moon_data.length < 3 ∨ baseline_data.length < 3 then .insufficient
  else
    .result full_moon_data.length baseline_data.length
      (compare_groups ext (castQ (full_moon_data.filterMap (·.abs_return)))
        (castQ (baseline_data.filterMap (·.abs_return))))
      (compare_groups ext (full_moon_data.filterMap (·.volatility_7d))
        (baseline_data.filterMap (·.volatility_7d)))

/-! ### Volatility patterns (`VolatilityAnalyzer`) -/

/-- Length of each maximal run of equal consecutive values (the
`regime_lengths` loop). -/
def runLengthsAux {α : Type} [DecidableEq α] (prev : α) (cur : ℕ) : List α → List ℕ
  | [] => [cur]
  | x :: xs => if x = prev then runLengthsAux x (cur + 1) xs else cur :: runLengthsAux x 1 xs

def runLengths {α : Type} [DecidableEq α] : List α → List ℕ
  | [] => []
  | x :: xs => runLengthsAux x 1 xs

structure VolatilityRegimes where
  threshold : ℝ
  high_vol_periods : ℕ
  low_vol_periods : ℕ
  avg_regime_length : ℚ
  max_regime_length : ℕ
  regime_switches : ℕ

structure IlluminationRelationship where
  correlation : ℚ
  p_value : ℚ
  bin_volatilities : List (ℕ × ℝ)

structure VolatilityPatterns where
  clustering : Option (List (ℕ × ℚ))
  illumination_relationship : Option IlluminationRelationship
  regimes : Option VolatilityRegimes
  mean_volatility : ℝ
  volatility_of_volatility : ℝ
  max_volatility : ℝ
  min_volatility : ℝ

/-- `VolatilityAnalyzer._analyze_volatility_clustering`: lag
autocorrelations via `np.corrcoef`; `none` embeds the `error` dict below
20 points. -/
def analyze_volatility_clustering (ext : ExternalStats) (volatilities : List ℝ) :
    Option (List (ℕ × ℚ)) :=
  if volatilities.length < 20 then none
  else some <| ([1, 2, 3, 5, 10] : List ℕ).filterMap fun lag =>
    if lag < volatilities.length then
      some (lag, ext.corrcoef (volatilities.take (volatilities.length - lag))
        (volatilities.drop lag))
    else none

open Classical in
/-- `np.digitize(x, np.linspace(0, 100, 11))`: the number of bin edges
`0, 10, …, 100` that are ≤ x. -/
noncomputable def illuminationBin (x : ℝ) : ℕ :=
  ((List.range 11).map (fun k => ((10 * k : ℕ) : ℝ))).countP (fun e => e ≤ x)

open Classical in
/-- `VolatilityAnalyzer._analyze_volatility_illumination`. -/
noncomputable def analyze_volatility_illumination (ext : ExternalStats)
    (volatilities illuminations : List ℝ) : Option IlluminationRelationship :=
  if volatilities.length ≠ illuminations.length ∨ volatilities.length < 10 then none
  else
    let pe := ext.pearsonr volatilities illuminations
    let pairs := volatilities.zip illuminations
    some
      { correlation := pe.1
        p_value := pe.2
        bin_volatilities := (List.range' 1 10).filterMap fun i =>
          let sel := (pairs.filter (fun vi => illuminationBin vi.2 = i)).map Prod.fst
          if sel.isEmpty then none else some (i - 1, rMean sel) }

open Classical in
/-- `VolatilityAnalyzer._detect_volatility_regimes`. -/
noncomputable def detect_volatility_regimes (volatilities : List ℝ) :
    Option VolatilityRegimes :=
  if volatilities.length < 20 then none
  else
    let threshold := rMedian volatilities
    let high_vol_periods := (volatilities.filter (fun v => threshold < v)).length
    let regimes := volatilities.map (fun v => decide (threshold < v))
    let regime_lengths := runLengths regimes
    some
      { threshold := threshold
        high_vol_periods := high_vol_periods
        low_vol_periods := volatilities.length - high_vol_periods
        avg_regime_length := (regime_lengths.sum : ℚ) / (regime_lengths.length : ℚ)
        max_regime_length := regime_lengths.foldl max 0
        regime_switches := regime_lengths.length - 1 }

/-- `VolatilityAnalyzer.analyze_volatility_patterns`; `none` embeds the
`error` dict below 10 defined volatilities. -/
noncomputable def analyze_volatility_patterns (ext : ExternalStats)
    (data : List CombinedDataPoint) : Option VolatilityPatterns :=
  let volatilities := data.filterMap (·.volatility_7d)
  let illuminations :=
    (data.filter (·.volatility_7d.isSome)).map (fun p => (p.illumination : ℝ))
  if volatilities.length < 10 then none
  else some
    { clustering := analyze_volatility_clustering ext volatilities
      illumination_relationship :=
        analyze_volatility_illumination ext volatilities illuminations
      regimes := detect_volatility_regimes volatilities
      mean_volatility := rMean volatilities
      volatility_of_volatility := rPopStd volatilities
      max_volatility := rMax volatilities
      min_volatility := rMin volatilities }

/-! ### The comprehensive analysis (`StatisticalAnalyzer`) -/

structure ComprehensiveResults where
  correlations : CorrelationsResult
  phase_analysis : PhaseComparisonResult
  volatility_analysis : Option VolatilityPatterns
  full_moon_analysis : FullMoonAnalysis
  summaries : Summaries

/-- `StatisticalAnalyzer.perform_comprehensive_analysis`: raises
`ValidationError` — the spec's `InsufficientDataError` — below 10 records,
and otherwise assembles the five sub-analyses (none of which raises it). -/
noncomputable def perform_comprehensive_analysis (ext : ExternalStats)
    (data : List CombinedDataPoint) : Except String ComprehensiveResults :=
  if data.length < 10 then
    .error "Insufficient data for statistical analysis (minimum 10 points required)"
  else
    .ok
      { correlations := analyze_correlations ext data
        phase_analysis := analyze_by_phases ext data
        volatility_analysis := analyze_volatility_patterns ext data
        full_moon_analysis := analyze_full_moon_effects ext data
        summaries := generate_statistical_summaries ext data }

/-! ## Spec-side definitions

Independent definitions following the specification's words, to be
compared against the code-derived ones above. -/

/-- The 30 days of November of a year. -/
def novemberDays (y : ℕ) : List ℤ :=
  (List.range 30).map (fun i => daysFromCivil y 11 1 + (i : ℤ))

/-- The spec's "fourth Thursday of November", found by filtering the days
of November by weekday — independently of `get_nth_weekday`'s offset
arithmetic. -/
def spec_fourth_thursday (y : ℕ) : Option ℤ :=
  ((novemberDays y).filter (fun d => pyWeekday d == 3)).get? 3

/-- The spec's holiday set for one year: New Year's Day, Independence Day,
Christmas Day, the fourth Thursday of November, and the day after. -/
def spec_holidays_of_year (y : ℕ) : List ℤ :=
  [daysFromCivil y 1 1, daysFromCivil y 7 4, daysFromCivil y 12 25] ++
  (match spec_fourth_thursday y with
   | some t => [t, t + 1]
   | none => [])

/-- The spec's Pearson correlation coefficient,
`Σ(x-x̄)(y-ȳ) / (√Σ(x-x̄)² · √Σ(y-ȳ)²)` — what `scipy.stats.pearsonr`
returns as its first component. -/
noncomputable def pearson_r_spec (x y : List ℝ) : ℝ :=
  let mx := rMean x
  let my := rMean y
  (((x.zip y).map (fun p => (p.1 - mx) * (p.2 - my))).sum) /
    (Real.sqrt ((x.map (fun v => (v - mx) ^ 2)).sum) *
     Real.sqrt ((y.map (fun v => (v - my) ^ 2)).sum))

/-- Inverse Fisher transform `w ↦ (e^{2w} - 1)/(e^{2w} + 1)` (= tanh w),
the map the confidence-interval code applies to both interval ends. -/
noncomputable def fisherInv (w : ℝ) : ℝ :=
  (Real.exp (2 * w) - 1) / (Real.exp (2 * w) + 1)

/-- The number of phases that have at least 3 volatility observations in a
`(phase, volatility)` list — the spec-side count of ANOVA-qualifying
groups, independent of the code's insertion-order grouping. -/
def qualifyingPhaseCount (vbp : List (MoonPhase × ℝ)) : ℕ :=
  (allPhases.filter (fun ph => 3 ≤ (vbp.filter (fun pv => pv.1 = ph)).length)).length

/-- The volatility-by-phase list that `analyze_by_phases` hands to the
ANOVA: every defined volatility, grouped and ordered by phase enum
order. -/
def volatilityByPhase (data : List CombinedDataPoint) : List (MoonPhase × ℝ) :=
  allPhases.flatMap fun ph => (volsOfPhase data ph).map (fun v => (ph, v))

/-! ## Concrete example data (for witnesses and counterexamples) -/

/-- A trivial instantiation of the external scipy/numpy primitives. -/
noncomputable def trivialStats : ExternalStats where
  pearsonr _ _ := (0, 0)
  spearmanr _ _ := (0, 0)
  f_oneway _ := (0, 0)
  ttest_ind _ _ := (0, 0)
  mannwhitneyu _ _ := (0, 0)
  norm_ppf_975 := 0
  skew _ := 0
  kurtosis _ := 0
  corrcoef _ _ := 0

def samplePoint (i : ℕ) : CombinedDataPoint :=
  { date := ⟨1440 * i, some 0⟩, open_ := 1, high := 1, low := 1, close := 1, volume := 1 }

def data9 : List CombinedDataPoint := (List.range 9).map samplePoint

def data10 : List CombinedDataPoint := (List.range 10).map samplePoint

/-- 2024-01-06 was a Saturday; its day number is 19728. -/
def satStock : List StockData :=
  [{ date := ⟨19728 * 1440, none⟩, open_ := 1, high := 1, low := 1, close := 1, volume := 0 }]

def satMoon : List MoonData :=
  [{ date := ⟨19728 * 1440, none⟩, phase_code := .FULL, illumination := 50,
     days_from_full_moon := 0, is_full_moon_window := true }]

/-- 2026-01-01 — New Year's Day of a year outside the hardcoded 2023–2025
holiday range — was a Thursday; its day number is 20454. -/
def nyStock : List StockData :=
  [{ date := ⟨20454 * 1440, none⟩, open_ := 1, high := 1, low := 1, close := 1, volume := 0 }]

def nyMoon : List MoonData :=
  [{ date := ⟨20454 * 1440, none⟩, phase_code := .FULL, illumination := 50,
     days_from_full_moon := 0, is_full_moon_window := true }]

/-- The combined record `align_data_by_trading_dates nyStock nyMoon` emits. -/
def nyPoint : CombinedDataPoint :=
  { date := ⟨20454 * 1440, some 0⟩, open_ := 1, high := 1, low := 1, close := 1, volume := 0,
    phase_code := .FULL, illumination := 50, days_from_full_moon := 0,
    is_full_moon_window := true, trading_day := true }

/-- 2024-01-03, a Wednesday (day number 19725): an ordinary trading day. -/
def wedStock : List StockData :=
  [{ date := ⟨19725 * 1440, none⟩, open_ := 1, high := 1, low := 1, close := 1, volume := 0 }]

def wedMoon : List MoonData :=
  [{ date := ⟨19725 * 1440, none⟩, phase_code := .NEW, illumination := 1,
     days_from_full_moon := 10, is_full_moon_window := false }]

def wedPoint : CombinedDataPoint :=
  { date := ⟨19725 * 1440, some 0⟩, open_ := 1, high := 1, low := 1, close := 1, volume := 0,
    phase_code := .NEW, illumination := 1, days_from_full_moon := 10,
    is_full_moon_window := false, trading_day := true }

/-- Two records with closes 1 and 2: enough for `window + 1 = 2` records
at window size 1. -/
def cdata : List CombinedDataPoint :=
  [{ date := ⟨0, some 0⟩, open_ := 1, high := 1, low := 1, close := 1, volume := 1 },
   { date := ⟨1440, some 0⟩, open_ := 2, high := 2, low := 2, close := 2, volume := 1 }]

/-- Three records with closes 1, 2, 4 (both daily returns = 100%). -/
def mdata : List CombinedDataPoint :=
  [{ date := ⟨0, some 0⟩, open_ := 1, high := 1, low := 1, close := 1, volume := 1 },
   { date := ⟨1440, some 0⟩, open_ := 2, high := 2, low := 2, close := 2, volume := 1 },
   { date := ⟨2880, some 0⟩, open_ := 4, high := 4, low := 4, close := 4, volume := 1 }]

/-- An external-stats record whose `pearsonr` reports r = 1 — scipy's
exact output on the perfectly collinear sample `x = y = [1, 2, 3]`. -/
noncomputable def pearsonOne : ExternalStats :=
  { trivialStats with pearsonr := fun _ _ => (1, 0) }

/-- 3 + 4 = 7 volatility observations split over two phases: two
qualifying groups but fewer than 10 total observations. -/
def exVbp : List (MoonPhase × ℝ) :=
  [(.NEW, 1), (.NEW, 2), (.NEW, 3), (.FULL, 1), (.FULL, 2), (.FULL, 3), (.FULL, 4)]

/-- External stats for the Bonferroni counterexample: a significant ANOVA
(p = 0.01) and a pairwise t-test p-value of 0.0213 — below 0.05 but above
0.05/28.  (scipy's `ttest_ind([0,1,2], [3,4,5])` gives p ≈ 0.0213.) -/
noncomputable def exStats9 : ExternalStats :=
  { trivialStats with
      f_oneway := fun _ => (37/10, 1/100)
      ttest_ind := fun _ _ => (367/100, 213/10000) }

def phasePoint (i : ℕ) (ph : MoonPhase) : CombinedDataPoint :=
  { date := ⟨1440 * i, some 0⟩, open_ := 1, high := 1, low := 1, close := 1, volume := 1,
    volatility_7d := some 1, phase_code := ph }

/-- Ten records: five NEW and five FULL, all with defined volatility. -/
def exData9 : List CombinedDataPoint :=
  (List.range 5).map (fun i => phasePoint i .NEW) ++
  (List.range 5).map (fun i => phasePoint (i + 5) .FULL)

/-! ## Helper lemmas -/

@[simp] theorem normalize_tz (dt : DateTime) :
    (normalize_datetime_to_utc dt).tz = some 0 := by
  obtain ⟨c, tz⟩ := dt
  cases tz with
  | none => rfl
  | some z => by_cases h : z = 0 <;> simp [normalize_datetime_to_utc, h]

theorem mem_allPhases (ph : MoonPhase) : ph ∈ allPhases := by
  cases ph <;> simp [allPhases]

theorem dict_lookup_spec {α : Type} (key : α → ℤ) (l : List α) (k : ℤ) (s : α)
    (h : dict_lookup key l k = some s) : s ∈ l ∧ key s = k := by
  unfold dict_lookup at h
  have hmem : s ∈ l.filter (fun s => key s == k) := by
    obtain ⟨hne, heq⟩ := List.mem_getLast?_eq_getLast (l := l.filter (fun s => key s == k)) h
    exact heq ▸ List.getLast_mem hne
  refine ⟨List.mem_of_mem_filter hmem, ?_⟩
  simpa using List.of_mem_filter hmem

theorem map_key_filterMap_sublist {β : Type} (key : β → ℤ) (f : ℤ → Option β) (l : List ℤ)
    (hf : ∀ d p, f d = some p → key p = d) :
    ((l.filterMap f).map key).Sublist l := by
  induction l with
  | nil => simp
  | cons d tl ih =>
    cases hfd : f d with
    | none =>
      rw [List.filterMap_cons, hfd]
      exact ih.cons d
    | some p =>
      rw [List.filterMap_cons, hfd, List.map_cons, hf d p hfd]
      exact ih.cons₂ d

theorem length_le_one_of_all_eq {α : Type} {l : List α} {a : α}
    (hn : l.Nodup) (h : ∀ x ∈ l, x = a) : l.length ≤ 1 := by
  match l with
  | [] => simp
  | [x] => simp
  | x :: y :: tl =>
    exfalso
    have hx := h x (by simp)
    have hy := h y (by simp)
    rw [List.nodup_cons] at hn
    exact hn.1 (by simp [hx, hy])

theorem clock_lt_of_dateOf_lt {a b : DateTime} (h : a.dateOf < b.dateOf) :
    a.clock < b.clock := by
  by_contra hc
  push_neg at hc
  have h2 : b.clock.ediv 1440 ≤ a.clock.ediv 1440 := Int.ediv_le_ediv (by norm_num) hc
  unfold DateTime.dateOf at h
  omega

theorem dateOf_le_of_clock_le {a b : DateTime} (h : a.clock ≤ b.clock) :
    a.dateOf ≤ b.dateOf :=
  Int.ediv_le_ediv (by norm_num) h

theorem is_trading_day_iff (d : ℤ) :
    is_trading_day d = true ↔ pyWeekday d < 5 ∧ d ∉ market_holidays := by
  unfold is_trading_day
  by_cases h5 : 5 ≤ pyWeekday d
  · rw [if_pos h5]
    exact iff_of_false (by simp) (fun hcon => absurd hcon.1 (by omega))
  · rw [if_neg h5]
    by_cases hm : d ∈ market_holidays
    · rw [if_pos hm]
      exact iff_of_false (by simp) (fun hcon => hcon.2 hm)
    · rw [if_neg hm]
      exact iff_of_true rfl ⟨by omega, hm⟩

theorem norm_stock_tz (stock : List StockData) (moon : List MoonData) :
    ∀ s ∈ (normalize_timestamps_to_utc stock moon).1, s.date.tz = some 0 := by
  intro s hs
  unfold normalize_timestamps_to_utc at hs
  obtain ⟨x, _, hx⟩ := List.mem_map.mp hs
  rw [← hx]
  exact normalize_tz x.date

theorem joinOne_some {ns : List StockData} {nm : List MoonData} {d : ℤ}
    {p : CombinedDataPoint} (h : joinOne ns nm d = some p) :
    p.date.dateOf = d ∧ is_trading_day d = true ∧ ∃ s ∈ ns, p.date = s.date := by
  cases hs : dict_lookup stockKey ns d with
  | none => simp [joinOne, hs] at h
  | some s =>
    cases hm : dict_lookup moonKey nm d with
    | none => simp [joinOne, hs, hm] at h
    | some m =>
      by_cases ht : is_trading_day d
      · simp only [joinOne, hs, hm, ht, if_true] at h
        obtain ⟨smem, skey⟩ := dict_lookup_spec _ _ _ _ hs
        obtain rfl : create_combined_data_point s m = p := Option.some.inj h
        exact ⟨skey, ht, s, smem, rfl⟩
      · simp [joinOne, hs, hm, ht] at h

theorem fillOne_some {ns : List StockData} {nm : List MoonData} {d : ℤ}
    {p : CombinedDataPoint} (h : fillOne ns nm d = some p) :
    p.date.dateOf = d ∧ ∃ s ∈ ns, p.date = s.date := by
  cases hs : dict_lookup stockKey ns d with
  | none => simp [fillOne, hs] at h
  | some s =>
    cases hm : find_closest_moon_data d nm with
    | none => simp [fillOne, hs, hm] at h
    | some m =>
      simp only [fillOne, hs, hm] at h
      obtain ⟨smem, skey⟩ := dict_lookup_spec _ _ _ _ hs
      obtain rfl : create_combined_data_point s m = p := Option.some.inj h
      exact ⟨skey, s, smem, rfl⟩

theorem allTradingDays_nodup (s e : ℤ) : (allTradingDays s e).Nodup := by
  unfold allTradingDays
  have hinj : Function.Injective (fun i : ℕ => s + (i : ℤ)) := by
    intro i j hij
    simp only at hij
    omega
  exact List.Nodup.filter _ (List.Nodup.map hinj (List.nodup_range _))

theorem mem_allTradingDays {s e d : ℤ} (h : d ∈ allTradingDays s e) :
    is_trading_day d = true :=
  List.of_mem_filter h

/-- Everything `_fill_missing_trading_days` preserves or establishes:
UTC timestamps, tradable dates, distinct dates, chronological order. -/
theorem fill_missing_invariants (combined : List CombinedDataPoint)
    (ns : List StockData) (nm : List MoonData)
    (htz : ∀ p ∈ combined, p.date.tz = some 0)
    (hns : ∀ s ∈ ns, s.date.tz = some 0)
    (htr : ∀ p ∈ combined, is_trading_day p.date.dateOf = true)
    (hnd : (combined.map (fun p => p.date.dateOf)).Nodup)
    (hsn : combined.Pairwise dtLe) :
    (∀ p ∈ fill_missing_trading_days combined ns nm, p.date.tz = some 0) ∧
    (∀ p ∈ fill_missing_trading_days combined ns nm, is_trading_day p.date.dateOf = true) ∧
    ((fill_missing_trading_days combined ns nm).map (fun p => p.date.dateOf)).Nodup ∧
    (fill_missing_trading_days combined ns nm).Pairwise dtLe := by
  unfold fill_missing_trading_days
  by_cases h1 : combined.isEmpty
  · rw [if_pos h1]
    exact ⟨htz, htr, hnd, hsn⟩
  · rw [if_neg h1]
    simp only []
    set dates := combined.map (fun p => p.date.dateOf) with hdates
    set missing :=
      (allTradingDays (dates.min?.getD 0) (dates.max?.getD 0)).filter
        (fun d => ¬ dates.contains d) with hmiss
    by_cases h2 : missing.isEmpty
    · rw [if_pos h2]
      exact ⟨htz, htr, hnd, hsn⟩
    · rw [if_neg h2]
      set extras := missing.filterMap (fillOne ns nm) with hex
      have hperm := List.perm_insertionSort dtLe (combined ++ extras)
      have hmem : ∀ p ∈ List.insertionSort dtLe (combined ++ extras),
          p ∈ combined ∨ p ∈ extras := by
        intro p hp
        simpa using hperm.mem_iff.mp hp
      have hex_facts : ∀ p ∈ extras,
          ∃ d ∈ missing, p.date.dateOf = d ∧ ∃ s ∈ ns, p.date = s.date := by
        intro p hp
        obtain ⟨d, hd, hfd⟩ := List.mem_filterMap.mp hp
        obtain ⟨hk, hs⟩ := fillOne_some hfd
        exact ⟨d, hd, hk, hs⟩
      refine ⟨?_, ?_, ?_, List.sorted_insertionSort dtLe _⟩
      · intro p hp
        rcases hmem p hp with h | h
        · exact htz p h
        · obtain ⟨d, _, _, s, hsmem, hdate⟩ := hex_facts p h
          rw [hdate]
          exact hns s hsmem
      · intro p hp
        rcases hmem p hp with h | h
        · exact htr p h
        · obtain ⟨d, hd, hk, _⟩ := hex_facts p h
          rw [hk]
          exact mem_allTradingDays (List.mem_of_mem_filter hd)
      · have hmperm : List.Perm ((List.insertionSort dtLe (combined ++ extras)).map
            (fun p => p.date.dateOf)) ((combined ++ extras).map (fun p => p.date.dateOf)) :=
          hperm.map _
        rw [hmperm.nodup_iff, List.map_append]
        have hsub : (extras.map (fun p => p.date.dateOf)).Sublist missing :=
          map_key_filterMap_sublist _ _ _ (fun d p h => (fillOne_some h).1)
        refine List.Nodup.append hnd
          (hsub.nodup (List.Nodup.filter _ (allTradingDays_nodup _ _))) ?_
        rw [List.disjoint_left]
        intro a ha hb
        have hamiss : a ∈ missing := hsub.mem hb
        have := List.of_mem_filter hamiss
        simp only [decide_not, Bool.not_eq_true', decide_eq_false_iff_not] at this
        exact this (by simpa [hdates] using ha)

theorem align_ok_invariants (stock : List StockData) (moon : List MoonData)
    (out : List CombinedDataPoint)
    (h : align_data_by_trading_dates stock moon = .ok out) :
    (∀ p ∈ out, p.date.tz = some 0) ∧
    (∀ p ∈ out, is_trading_day p.date.dateOf = true) ∧
    ((out.map (fun p => p.date.dateOf)).Nodup) ∧
    out.Pairwise dtLe := by
  unfold align_data_by_trading_dates at h
  simp only [] at h
  set ns := (normalize_timestamps_to_utc stock moon).1 with hns_def
  set nm := (normalize_timestamps_to_utc stock moon).2 with hnm_def
  set common_dates := ((ns.map stockKey).dedup).filter
    (fun d => decide (d ∈ (nm.map moonKey).dedup)) with hcd
  by_cases hc : common_dates.isEmpty
  · rw [if_pos hc] at h
    cases h
  · rw [if_neg hc] at h
    set sorted_common := List.insertionSort (· ≤ ·) common_dates with hsc
    set combined := sorted_common.filterMap (joinOne ns nm) with hcomb
    have hns : ∀ s ∈ ns, s.date.tz = some 0 := norm_stock_tz stock moon
    have hfacts : ∀ p ∈ combined,
        ∃ d ∈ sorted_common, p.date.dateOf = d ∧ is_trading_day d = true ∧
          ∃ s ∈ ns, p.date = s.date := by
      intro p hp
      obtain ⟨d, hd, hjd⟩ := List.mem_filterMap.mp hp
      obtain ⟨hk, ht, hs⟩ := joinOne_some hjd
      exact ⟨d, hd, hk, ht, hs⟩
    have htz' : ∀ p ∈ combined, p.date.tz = some 0 := by
      intro p hp
      obtain ⟨_, _, _, _, s, hsmem, hdate⟩ := hfacts p hp
      rw [hdate]
      exact hns s hsmem
    have htr' : ∀ p ∈ combined, is_trading_day p.date.dateOf = true := by
      intro p hp
      obtain ⟨d, _, hk, ht, _⟩ := hfacts p hp
      rw [hk]
      exact ht
    have hnodup_sc : sorted_common.Nodup :=
      (List.perm_insertionSort _ _).nodup_iff.mpr
        (List.Nodup.filter _ (List.nodup_dedup _))
    have hsorted_sc : sorted_common.Pairwise (· ≤ · : ℤ → ℤ → Prop) :=
      List.sorted_insertionSort _ _
    have hstrict_sc : sorted_common.Pairwise (· < · : ℤ → ℤ → Prop) :=
      (hsorted_sc.and hnodup_sc).imp (fun hab => lt_of_le_of_ne hab.1 hab.2)
    have hsubc : (combined.map (fun p => p.date.dateOf)).Sublist sorted_common :=
      map_key_filterMap_sublist _ _ _ (fun d p hp => (joinOne_some hp).1)
    have hnd' : (combined.map (fun p => p.date.dateOf)).Nodup := hsubc.nodup hnodup_sc
    have hpair' : combined.Pairwise dtLe := by
      have h1 : (combined.map (fun p => p.date.dateOf)).Pairwise (· < ·) :=
        hstrict_sc.sublist hsubc
      have h2 : combined.Pairwise (fun a b => a.date.dateOf < b.date.dateOf) :=
        List.pairwise_map.mp h1
      refine h2.imp_of_mem ?_
      intro a b ha hb hab
      have hclock : a.date.clock < b.date.clock := clock_lt_of_dateOf_lt hab
      show dateLe a.date b.date
      unfold dateLe
      rw [htz' a ha, htz' b hb]
      simpa using le_of_lt hclock
    obtain rfl : fill_missing_trading_days combined ns nm = out := Except.ok.inj h
    exact fill_missing_invariants combined ns nm htz' hns htr' hnd' hpair'

/-! ## Claims about the temporal aligner (C2, C3, C4) -/

/-- C2: For every non-empty output sequence of the Temporal Aligner, the
record dates are strictly increasing, there are no duplicate dates, and
every record's timestamp carries the same single timezone (UTC); the
output also passes `validate_data_alignment`. -/
theorem aligned_output_strictly_increasing (stock : List StockData)
    (moon : List MoonData) (out : List CombinedDataPoint)
    (h : align_data_by_trading_dates stock moon = .ok out) :
    (out.map (fun p => p.date.dateOf)).Pairwise (· < ·) ∧
    (∀ p ∈ out, p.date.tz = some 0) ∧
    (out ≠ [] → validate_data_alignment out = true) := by
  obtain ⟨htz, htr, hnd, hsort⟩ := align_ok_invariants stock moon out h
  have hne : out.Pairwise (fun a b => a.date.dateOf ≠ b.date.dateOf) :=
    List.pairwise_map.mp hnd
  have hstrict : (out.map (fun p => p.date.dateOf)).Pairwise (· < ·) := by
    rw [List.pairwise_map]
    refine (hsort.and hne).imp_of_mem ?_
    intro a b ha hb hab
    have hle : a.date.clock ≤ b.date.clock := by
      have h1 := hab.1
      unfold dtLe dateLe at h1
      rw [htz a ha, htz b hb] at h1
      simpa using h1
    exact lt_of_le_of_ne (dateOf_le_of_clock_le hle) hab.2
  refine ⟨hstrict, htz, ?_⟩
  intro hne_out
  unfold validate_data_alignment
  rw [if_neg (by simpa [List.isEmpty_iff] using hne_out)]
  simp only []
  have hdsorted : List.Sorted dateLe (out.map (·.date)) := by
    rw [List.Sorted, List.pairwise_map]
    exact hsort
  rw [if_neg (not_ne_iff.mpr hdsorted.insertionSort_eq.symm)]
  have hdna : (out.map (fun p => p.date.dateOf)).Nodup := hnd
  have hdn2 : ((out.map (·.date)).map DateTime.dateOf).Nodup := by
    rw [List.map_map]
    exact hdna
  have hdatesnd : (out.map (·.date)).Nodup := List.Nodup.of_map _ hdn2
  rw [if_neg (not_ne_iff.mpr (by rw [List.dedup_eq_self.mpr hdatesnd]))]
  have htzdedup : ((out.map (fun p => p.date.tz)).dedup).length ≤ 1 := by
    refine length_le_one_of_all_eq (a := some 0) (List.nodup_dedup _) ?_
    intro x hx
    obtain ⟨p, hp, hpx⟩ := List.mem_map.mp (List.mem_dedup.mp hx)
    rw [← hpx]
    exact htz p hp
  rw [if_neg (by omega)]

/-- Witness for C2: the aligner applied to a concrete one-day input. -/
theorem aligned_output_strictly_increasing_witness :
    ([wedPoint].map (fun p => p.date.dateOf)).Pairwise (· < ·) ∧
    (∀ p ∈ [wedPoint], p.date.tz = some 0) ∧
    ([wedPoint] ≠ [] → validate_data_alignment [wedPoint] = true) :=
  aligned_output_strictly_increasing wedStock wedMoon [wedPoint] rfl

/-- C3 (amended): every record in the aligner's output falls on a weekday
that is not in the fixed holiday set, but that set is computed once for
the years 2023–2025 only (matching, per year, the spec's five holidays) —
it is NOT recomputed for the record's own year. -/
theorem aligned_dates_tradable (stock : List StockData) (moon : List MoonData)
    (out : List CombinedDataPoint)
    (h : align_data_by_trading_dates stock moon = .ok out) :
    (∀ p ∈ out, pyWeekday p.date.dateOf < 5 ∧ p.date.dateOf ∉ market_holidays) ∧
    market_holidays = (List.range' 2023 3).flatMap spec_holidays_of_year := by
  obtain ⟨-, htr, -, -⟩ := align_ok_invariants stock moon out h
  exact ⟨fun p hp => (is_trading_day_iff _).mp (htr p hp), by decide⟩

/-- Witness for C3 at a concrete aligned pair. -/
theorem aligned_dates_tradable_witness :
    (∀ p ∈ [wedPoint], pyWeekday p.date.dateOf < 5 ∧ p.date.dateOf ∉ market_holidays) ∧
    market_holidays = (List.range' 2023 3).flatMap spec_holidays_of_year :=
  aligned_dates_tradable wedStock wedMoon [wedPoint] rfl

/-- Counterexample to C3 as stated: the aligner emits a record dated
2026-01-01 — New Year's Day of that record's own year — because the
holiday set is hardcoded to 2023–2025 and never recomputed for 2026. -/
theorem aligned_holiday_counterexample :
    align_data_by_trading_dates nyStock nyMoon = .ok [nyPoint] ∧
    nyPoint.date.dateOf = daysFromCivil 2026 1 1 ∧
    daysFromCivil 2026 1 1 ∈ spec_holidays_of_year 2026 :=
  ⟨rfl, by decide, by decide⟩

/-- C4 (amended): the join raises its error exactly when the two inputs
share NO date at all (after timestamp normalization); a shared
non-tradable date suffices to return normally. -/
theorem align_error_iff_no_common_date (stock : List StockData) (moon : List MoonData) :
    (∃ e, align_data_by_trading_dates stock moon = .error e) ↔
      ∀ s ∈ stock, ∀ m ∈ moon,
        (normalize_datetime_to_utc s.date).dateOf ≠
          (normalize_datetime_to_utc m.date).dateOf := by
  unfold align_data_by_trading_dates
  simp only []
  set ns := (normalize_timestamps_to_utc stock moon).1 with hns_def
  set nm := (normalize_timestamps_to_utc stock moon).2 with hnm_def
  set common_dates := ((ns.map stockKey).dedup).filter
    (fun d => decide (d ∈ (nm.map moonKey).dedup)) with hcd
  have hkey : ∀ x ∈ stock,
      (normalize_datetime_to_utc x.date).dateOf ∈ (ns.map stockKey).dedup := by
    intro x hx
    rw [List.mem_dedup, List.mem_map]
    exact ⟨{ x with date := normalize_datetime_to_utc x.date },
      List.mem_map.mpr ⟨x, hx, rfl⟩, rfl⟩
  have hkeym : ∀ x ∈ moon,
      (normalize_datetime_to_utc x.date).dateOf ∈ (nm.map moonKey).dedup := by
    intro x hx
    rw [List.mem_dedup, List.mem_map]
    exact ⟨{ x with date := normalize_datetime_to_utc x.date },
      List.mem_map.mpr ⟨x, hx, rfl⟩, rfl⟩
  by_cases hc : common_dates.isEmpty
  · rw [if_pos hc]
    refine iff_of_true ⟨_, rfl⟩ ?_
    intro s hs m hm heq
    have hd : (normalize_datetime_to_utc s.date).dateOf ∈ common_dates := by
      refine List.mem_filter.mpr ⟨hkey s hs, ?_⟩
      rw [heq]
      exact decide_eq_true (hkeym m hm)
    rw [List.isEmpty_iff] at hc
    rw [hc] at hd
    cases hd
  · rw [if_neg hc]
    refine iff_of_false (by rintro ⟨e, he⟩; cases he) ?_
    intro hall
    have hne : common_dates ≠ [] := by
      intro hnil
      rw [List.isEmpty_iff] at hc
      exact hc hnil
    obtain ⟨d, hd⟩ := List.exists_mem_of_ne_nil _ hne
    obtain ⟨hds, hdecide⟩ := List.mem_filter.mp hd
    have hdm : d ∈ (nm.map moonKey).dedup := of_decide_eq_true hdecide
    obtain ⟨s', hs', hks⟩ := List.mem_map.mp (List.mem_dedup.mp hds)
    obtain ⟨m', hm', hkm⟩ := List.mem_map.mp (List.mem_dedup.mp hdm)
    obtain ⟨s0, hs0, hs0eq⟩ := List.mem_map.mp hs'
    obtain ⟨m0, hm0, hm0eq⟩ := List.mem_map.mp hm'
    refine hall s0 hs0 m0 hm0 ?_
    have h1 : (normalize_datetime_to_utc s0.date).dateOf = d := by
      rw [← hks, ← hs0eq]
      rfl
    have h2 : (normalize_datetime_to_utc m0.date).dateOf = d := by
      rw [← hkm, ← hm0eq]
      rfl
    rw [h1, h2]

/-- Counterexample to C4 as stated: the two inputs overlap only on
2024-01-06, a Saturday — no overlapping tradable date exists — yet the
aligner returns normally (with an empty list) instead of raising. -/
theorem align_no_tradable_overlap_counterexample :
    align_data_by_trading_dates satStock satMoon = .ok [] ∧
    (∀ s ∈ satStock, ∀ m ∈ satMoon,
      (normalize_datetime_to_utc s.date).dateOf =
        (normalize_datetime_to_utc m.date).dateOf) ∧
    (∀ s ∈ satStock, is_trading_day (normalize_datetime_to_utc s.date).dateOf = false) :=
  ⟨rfl, by decide, by decide⟩

/-- Witness for C4: a pair of inputs sharing no date at all raises, and
the wed pair (sharing a tradable date) does not. -/
theorem align_error_iff_no_common_date_witness :
    (∃ e, align_data_by_trading_dates wedStock satMoon = .error e) ∧
    ¬ ∃ e, align_data_by_trading_dates wedStock wedMoon = .error e := by
  constructor
  · exact (align_error_iff_no_common_date wedStock satMoon).mpr (by decide)
  · intro hcon
    have h2 := (align_error_iff_no_common_date wedStock wedMoon).mp hcon
    exact h2
      { date := ⟨19725 * 1440, none⟩, open_ := 1, high := 1, low := 1, close := 1, volume := 0 }
      (by simp [wedStock])
      { date := ⟨19725 * 1440, none⟩, phase_code := .NEW, illumination := 1,
        days_from_full_moon := 10, is_full_moon_window := false }
      (by simp [wedMoon]) rfl

/-! ## Claim about the statistical engine's precondition (C1) -/

/-- C1: the comprehensive analysis raises its insufficient-data error
(the code's `ValidationError`, the spec's `InsufficientDataError`)
exactly on fewer than 10 records, and returns a full report otherwise. -/
theorem comprehensive_insufficient_data (ext : ExternalStats)
    (data : List CombinedDataPoint) :
    (data.length < 10 → perform_comprehensive_analysis ext data =
      .error "Insufficient data for statistical analysis (minimum 10 points required)") ∧
    (10 ≤ data.length → ∃ r, perform_comprehensive_analysis ext data = .ok r) := by
  constructor
  · intro h
    unfold perform_comprehensive_analysis
    rw [if_pos h]
  · intro h
    unfold perform_comprehensive_analysis
    rw [if_neg (by omega)]
    exact ⟨_, rfl⟩

/-- Witness for C1 (Scenario E): exactly 9 records raise the error and
exactly 10 do not. -/
theorem comprehensive_insufficient_data_witness :
    (data9.length < 10 ∧ perform_comprehensive_analysis trivialStats data9 =
      .error "Insufficient data for statistical analysis (minimum 10 points required)") ∧
    (10 ≤ data10.length ∧
      ∃ r, perform_comprehensive_analysis trivialStats data10 = .ok r) :=
  ⟨⟨by decide, (comprehensive_insufficient_data trivialStats data9).1 (by decide)⟩,
   ⟨by decide, (comprehensive_insufficient_data trivialStats data10).2 (by decide)⟩⟩

/-! ## Claim about the metrics engine (C5) -/

theorem calculate_stock_metrics_getElem? (data : List CombinedDataPoint) (w : ℕ)
    (hlen : 2 ≤ data.length) (i : ℕ) :
    (calculate_stock_metrics data w)[i]? = (data[i]?).map (fun point =>
      let daily_return :=
        if 0 < i then calculate_daily_return point.close (closeAt data (i - 1)) else 0
      { point with
          daily_return := some daily_return
          abs_return := some |daily_return|
          volatility_7d := calculate_rolling_volatility data i w }) := by
  unfold calculate_stock_metrics
  rw [if_neg (by omega), List.getElem?_mapIdx]

theorem calculate_stock_metrics_length (data : List CombinedDataPoint) (w : ℕ)
    (hlen : 2 ≤ data.length) :
    (calculate_stock_metrics data w).length = data.length := by
  unfold calculate_stock_metrics
  rw [if_neg (by omega), List.length_mapIdx]

theorem calculate_rolling_volatility_below (data : List CombinedDataPoint)
    {i w : ℕ} (hi : i < w) : calculate_rolling_volatility data i w = none := by
  unfold calculate_rolling_volatility
  rw [if_pos hi]

theorem calculate_rolling_volatility_eq (data : List CombinedDataPoint)
    {i w : ℕ} (hw : 2 ≤ w) (hi : w ≤ i) :
    calculate_rolling_volatility data i w =
      some (sampleStd ((List.range' (i + 1 - w) w).map
        (fun j => calculate_daily_return (closeAt data j) (closeAt data (j - 1))))) := by
  unfold calculate_rolling_volatility
  rw [if_neg (by omega)]
  simp only []
  have hcount : i + 1 - (i + 1 - w) = w := by omega
  rw [hcount]
  have hfilter : (List.range' (i + 1 - w) w).filter (fun j => decide (0 < j)) =
      List.range' (i + 1 - w) w := by
    rw [List.filter_eq_self]
    intro j hj
    have hj' := List.mem_range'_1.mp hj
    simp only [decide_eq_true_eq]
    omega
  rw [hfilter]
  rw [if_neg (by rw [List.length_map, List.length_range']; omega)]

/-- C5 (amended: window size at least 2): with at least `window + 1`
records, rolling volatility is absent for the first `window` records, and
from index `window` on it is a defined non-negative real equal to the
sample standard deviation (divisor n−1) of the `window` most recent daily
returns — the `daily_return` values the engine itself recorded — ending at
that index. -/
theorem rolling_volatility_defined_iff (data : List CombinedDataPoint) (w : ℕ)
    (hw : 2 ≤ w) (hlen : w + 1 ≤ data.length) :
    (∀ i, i < w → ∀ p, (calculate_stock_metrics data w)[i]? = some p →
      p.volatility_7d = none) ∧
    (∀ i p, w ≤ i → (calculate_stock_metrics data w)[i]? = some p →
      ∃ v : ℝ, p.volatility_7d = some v ∧ 0 ≤ v ∧
        v = sampleStd ((List.range' (i + 1 - w) w).map (fun j =>
          ((((calculate_stock_metrics data w)[j]?).bind
            (fun q => q.daily_return)).getD 0)))) := by
  have hlen2 : 2 ≤ data.length := by omega
  constructor
  · intro i hi p hp
    rw [calculate_stock_metrics_getElem? data w hlen2] at hp
    obtain ⟨pt, -, hF⟩ := Option.map_eq_some'.mp hp
    rw [← hF]
    simpa using calculate_rolling_volatility_below data hi
  · intro i p hi hp
    have hilen : i < data.length := by
      obtain ⟨hlt, -⟩ := List.getElem?_eq_some_iff.mp hp
      rwa [calculate_stock_metrics_length data w hlen2] at hlt
    rw [calculate_stock_metrics_getElem? data w hlen2] at hp
    obtain ⟨pt, hpt, hF⟩ := Option.map_eq_some'.mp hp
    refine ⟨sampleStd ((List.range' (i + 1 - w) w).map
        (fun j => calculate_daily_return (closeAt data j) (closeAt data (j - 1)))),
      ?_, Real.sqrt_nonneg _, ?_⟩
    · rw [← hF]
      simpa using calculate_rolling_volatility_eq data hw hi
    · refine congrArg sampleStd (List.map_congr_left ?_)
      intro j hj
      obtain ⟨hj1, hj2⟩ := List.mem_range'_1.mp hj
      have hjpos : 0 < j := by omega
      have hjlen : j < data.length := by omega
      have hdj : data[j]? = some data[j] := List.getElem?_eq_getElem hjlen
      rw [calculate_stock_metrics_getElem? data w hlen2 j, hdj]
      simp only [Option.map_some', Option.some_bind, if_pos hjpos]
      have hclose : closeAt data j = (data[j]).close := by
        unfold closeAt
        rw [List.get?_eq_getElem?, hdj]
        rfl
      rw [hclose]
      rfl

/-- Witness for C5 at window 2 over three concrete records. -/
theorem rolling_volatility_defined_iff_witness :
    2 ≤ 2 ∧ 2 + 1 ≤ mdata.length ∧
    ((∀ i, i < 2 → ∀ p, (calculate_stock_metrics mdata 2)[i]? = some p →
      p.volatility_7d = none) ∧
    (∀ i p, 2 ≤ i → (calculate_stock_metrics mdata 2)[i]? = some p →
      ∃ v : ℝ, p.volatility_7d = some v ∧ 0 ≤ v ∧
        v = sampleStd ((List.range' (i + 1 - 2) 2).map (fun j =>
          ((((calculate_stock_metrics mdata 2)[j]?).bind
            (fun q => q.daily_return)).getD 0))))) :=
  ⟨by decide, by decide, rolling_volatility_defined_iff mdata 2 (by decide) (by decide)⟩

/-- Counterexample to C5 as stated: at window size 1 with `window + 1 = 2`
records, the record at index `window` has NO defined rolling volatility
(the window holds a single return, below the 2-return minimum). -/
theorem rolling_volatility_window_one_counterexample :
    1 + 1 ≤ cdata.length ∧
    ((calculate_stock_metrics cdata 1)[1]?).map (fun p => p.volatility_7d) =
      some none :=
  ⟨by decide, rfl⟩

/-! ## Claims about the correlation analyzer (C6, C7) -/

theorem returnsData_eq (data : List CombinedDataPoint) :
    returnsData data = (data.filter (fun p => p.daily_return.isSome)).map
      (fun p => (p.daily_return.getD 0, p.illumination, p.days_from_full_moon)) := by
  induction data with
  | nil => rfl
  | cons p tl ih =>
    cases hd : p.daily_return with
    | none =>
      simp only [returnsData, List.filterMap_cons, List.filter_cons, hd] at ih ⊢
      simpa using ih
    | some r =>
      simp only [returnsData, List.filterMap_cons, List.filter_cons, hd] at ih ⊢
      simpa [hd] using ih

theorem volatilityData_eq (data : List CombinedDataPoint) :
    volatilityData data = (data.filter (fun p => p.volatility_7d.isSome)).map
      (fun p => (p.volatility_7d.getD 0, p.illumination, p.days_from_full_moon)) := by
  induction data with
  | nil => rfl
  | cons p tl ih =>
    cases hd : p.volatility_7d with
    | none =>
      simp only [volatilityData, List.filterMap_cons, List.filter_cons, hd] at ih ⊢
      simpa using ih
    | some r =>
      simp only [volatilityData, List.filterMap_cons, List.filter_cons, hd] at ih ⊢
      simpa [hd] using ih

theorem absReturnsData_eq (data : List CombinedDataPoint) :
    absReturnsData data = (data.filter (fun p => p.abs_return.isSome)).map
      (fun p => (p.abs_return.getD 0, p.illumination)) := by
  induction data with
  | nil => rfl
  | cons p tl ih =>
    cases hd : p.abs_return with
    | none =>
      simp only [absReturnsData, List.filterMap_cons, List.filter_cons, hd] at ih ⊢
      simpa using ih
    | some r =>
      simp only [absReturnsData, List.filterMap_cons, List.filter_cons, hd] at ih ⊢
      simpa [hd] using ih

/-- C6: a correlation is computed with `pearsonr`/`spearmanr` over exactly
the passed operand pairs when there are at least 3 of them, and otherwise
(in particular for exactly 2 pairs) the insufficient-data placeholder with
r = 0, p = 1 is returned; the operand subsets that `analyze_correlations`
passes are exactly the records where the stock metric is defined. -/
theorem correlation_minimum_points (ext : ExternalStats) (x y : List ℝ)
    (data : List CombinedDataPoint) :
    (x.length < 3 → calculate_correlation ext x y =
      { pearson_correlation := 0
        pearson_p_value := 1
        spearman_correlation := 0
        spearman_p_value := 1
        sample_size := x.length
        confidence_interval_95 := (0, 0)
        interpretation := "Insufficient data" }) ∧
    (3 ≤ x.length → calculate_correlation ext x y =
      { pearson_correlation := (ext.pearsonr x y).1
        pearson_p_value := (ext.pearsonr x y).2
        spearman_correlation := (ext.spearmanr x y).1
        spearman_p_value := (ext.spearmanr x y).2
        sample_size := x.length
        confidence_interval_95 :=
          correlation_confidence_interval ext.norm_ppf_975 (ext.pearsonr x y).1 x.length
        interpretation := interpret_correlation (ext.pearsonr x y).1 (ext.pearsonr x y).2 }) ∧
    (returnsData data = (data.filter (fun p => p.daily_return.isSome)).map
      (fun p => (p.daily_return.getD 0, p.illumination, p.days_from_full_moon))) ∧
    (volatilityData data = (data.filter (fun p => p.volatility_7d.isSome)).map
      (fun p => (p.volatility_7d.getD 0, p.illumination, p.days_from_full_moon))) ∧
    (absReturnsData data = (data.filter (fun p => p.abs_return.isSome)).map
      (fun p => (p.abs_return.getD 0, p.illumination))) := by
  refine ⟨?_, ?_, returnsData_eq data, volatilityData_eq data, absReturnsData_eq data⟩
  · intro h
    unfold calculate_correlation
    rw [if_pos h]
  · intro h
    unfold calculate_correlation
    rw [if_neg (by omega)]

/-- Witness for C6 (Scenario C): exactly 2 valid point pairs yield the
r = 0, p = 1 placeholder. -/
theorem correlation_minimum_points_witness :
    calculate_correlation trivialStats [1, 2] [3, 4] =
      { pearson_correlation := 0
        pearson_p_value := 1
        spearman_correlation := 0
        spearman_p_value := 1
        sample_size := 2
        confidence_interval_95 := (0, 0)
        interpretation := "Insufficient data" } := by
  have h := (correlation_minimum_points trivialStats [1, 2] [3, 4] []).1 (by decide)
  simpa using h

theorem fisherInv_lt_one (w : ℝ) : fisherInv w < 1 := by
  unfold fisherInv
  have he : 0 < Real.exp (2 * w) := Real.exp_pos _
  rw [div_lt_one (by linarith)]
  linarith

theorem neg_one_lt_fisherInv (w : ℝ) : -1 < fisherInv w := by
  unfold fisherInv
  have he : 0 < Real.exp (2 * w) := Real.exp_pos _
  rw [lt_div_iff₀ (by linarith)]
  linarith

theorem fisherInv_mono {a b : ℝ} (h : a ≤ b) : fisherInv a ≤ fisherInv b := by
  unfold fisherInv
  have ha : 0 < Real.exp (2 * a) := Real.exp_pos _
  have hb : 0 < Real.exp (2 * b) := Real.exp_pos _
  have hab : Real.exp (2 * a) ≤ Real.exp (2 * b) := Real.exp_le_exp.mpr (by linarith)
  rw [div_le_div_iff₀ (by linarith) (by linarith)]
  nlinarith

/-- The inverse Fisher transform undoes the Fisher z-transform on
(-1, 1). -/
theorem fisherInv_half_log {r : ℝ} (h1 : -1 < r) (h2 : r < 1) :
    fisherInv (1 / 2 * Real.log ((1 + r) / (1 - r))) = r := by
  unfold fisherInv
  have hpos : 0 < (1 + r) / (1 - r) := div_pos (by linarith) (by linarith)
  have h2exp : Real.exp (2 * (1 / 2 * Real.log ((1 + r) / (1 - r)))) =
      (1 + r) / (1 - r) := by
    rw [show (2 : ℝ) * (1 / 2 * Real.log ((1 + r) / (1 - r))) =
      Real.log ((1 + r) / (1 - r)) by ring]
    exact Real.exp_log hpos
  rw [h2exp]
  have hne : (1 : ℝ) - r ≠ 0 := by linarith
  have ht1 : (1 + r) / (1 - r) - 1 = (2 * r) / (1 - r) := by
    field_simp
    ring
  have ht2 : (1 + r) / (1 - r) + 1 = 2 / (1 - r) := by
    field_simp
    ring
  rw [ht1, ht2, div_div_div_cancel_right₀]
  · norm_num
  · exact hne
/-- C7 (amended): for sample size n ≥ 4, a non-negative critical value
and a point estimate strictly inside (-1, 1), the Fisher-transform
confidence interval contains r and both bounds lie within [-1, 1]. -/
theorem correlation_ci_contains_r (zc : ℝ) (r : ℚ) (n : ℕ)
    (hn : 4 ≤ n) (hzc : 0 ≤ zc) (hr1 : -1 < (r : ℝ)) (hr2 : (r : ℝ) < 1) :
    (correlation_confidence_interval zc r n).1 ≤ (r : ℝ) ∧
    (r : ℝ) ≤ (correlation_confidence_interval zc r n).2 ∧
    -1 ≤ (correlation_confidence_interval zc r n).1 ∧
    (correlation_confidence_interval zc r n).2 ≤ 1 := by
  unfold correlation_confidence_interval
  rw [if_neg (by omega)]
  simp only []
  set z : ℝ := 1 / 2 * Real.log ((1 + (r : ℝ)) / (1 - (r : ℝ))) with hz
  set se : ℝ := 1 / Real.sqrt ((n : ℝ) - 3) with hse
  have hse0 : 0 ≤ se := by
    rw [hse]
    positivity
  have hzcse : 0 ≤ zc * se := mul_nonneg hzc hse0
  have hfix : fisherInv z = (r : ℝ) := fisherInv_half_log hr1 hr2
  refine ⟨?_, ?_, ?_, ?_⟩
  · show fisherInv (z - zc * se) ≤ (r : ℝ)
    rw [← hfix]
    exact fisherInv_mono (by linarith)
  · show (r : ℝ) ≤ fisherInv (z + zc * se)
    rw [← hfix]
    exact fisherInv_mono (by linarith)
  · exact le_of_lt (neg_one_lt_fisherInv _)
  · exact le_of_lt (fisherInv_lt_one _)

/-- Witness for C7 (amended) at zc = 2, r = 0, n = 4. -/
theorem correlation_ci_contains_r_witness :
    (4 ≤ 4 ∧ (0 : ℝ) ≤ 2 ∧ -1 < ((0 : ℚ) : ℝ) ∧ ((0 : ℚ) : ℝ) < 1) ∧
    ((correlation_confidence_interval 2 0 4).1 ≤ ((0 : ℚ) : ℝ) ∧
     ((0 : ℚ) : ℝ) ≤ (correlation_confidence_interval 2 0 4).2 ∧
     -1 ≤ (correlation_confidence_interval 2 0 4).1 ∧
     (correlation_confidence_interval 2 0 4).2 ≤ 1) :=
  ⟨⟨by norm_num, by norm_num, by norm_num, by norm_num⟩,
   correlation_ci_contains_r 2 0 4 (by norm_num) (by norm_num) (by norm_num) (by norm_num)⟩

/-- scipy's `pearsonr` on the collinear sample x = y = [1, 2, 3] returns
exactly r = 1: the spec-side Pearson formula evaluates to 1 there. -/
theorem pearson_r_spec_collinear : pearson_r_spec [1, 2, 3] [1, 2, 3] = 1 := by
  unfold pearson_r_spec rMean
  simp only [List.zip, List.zipWith, List.map, List.sum_cons, List.sum_nil, List.length]
  norm_num

/-- Counterexample to C7 as stated: at sample size n = 3 (allowed by the
claim) with the perfectly collinear sample x = y = [1, 2, 3] — on which
Pearson r is exactly 1 — the code returns the degenerate interval (0, 0),
which does not contain r = 1. -/
theorem correlation_ci_counterexample :
    (calculate_correlation pearsonOne [1, 2, 3] [1, 2, 3]).sample_size = 3 ∧
    (calculate_correlation pearsonOne [1, 2, 3] [1, 2, 3]).pearson_correlation = 1 ∧
    (calculate_correlation pearsonOne [1, 2, 3] [1, 2, 3]).confidence_interval_95 = (0, 0) ∧
    ¬ ((calculate_correlation pearsonOne [1, 2, 3] [1, 2, 3]).confidence_interval_95.1 ≤
        ((calculate_correlation pearsonOne [1, 2, 3] [1, 2, 3]).pearson_correlation : ℝ) ∧
       ((calculate_correlation pearsonOne [1, 2, 3] [1, 2, 3]).pearson_correlation : ℝ) ≤
        (calculate_correlation pearsonOne [1, 2, 3] [1, 2, 3]).confidence_interval_95.2) ∧
    pearson_r_spec [1, 2, 3] [1, 2, 3] = 1 := by
  refine ⟨rfl, rfl, rfl, ?_, pearson_r_spec_collinear⟩
  rintro ⟨-, h2⟩
  have hci : (calculate_correlation pearsonOne [1, 2, 3] [1, 2, 3]).confidence_interval_95
      = (0, 0) := rfl
  have hr : (calculate_correlation pearsonOne [1, 2, 3] [1, 2, 3]).pearson_correlation
      = 1 := rfl
  rw [hci, hr] at h2
  norm_num at h2

/-! ## Claims about the phase analyzer (C8, C9) -/

theorem mem_foldl_dedupFirst {α : Type} [DecidableEq α] :
    ∀ (l acc : List α) (x : α),
      (x ∈ l.foldl (fun acc x => if x ∈ acc then acc else acc ++ [x]) acc) ↔
        x ∈ acc ∨ x ∈ l := by
  intro l
  induction l with
  | nil => simp
  | cons a tl ih =>
    intro acc x
    simp only [List.foldl_cons]
    rw [ih]
    by_cases h : a ∈ acc
    · rw [if_pos h]
      simp only [List.mem_cons]
      constructor
      · rintro (h1 | h1)
        · exact Or.inl h1
        · exact Or.inr (Or.inr h1)
      · rintro (h1 | h1 | h1)
        · exact Or.inl h1
        · exact Or.inl (h1 ▸ h)
        · exact Or.inr h1
    · rw [if_neg h]
      simp only [List.mem_append, List.mem_singleton, List.mem_cons]
      tauto

theorem mem_dedupFirst {α : Type} [DecidableEq α] (l : List α) (x : α) :
    x ∈ dedupFirst l ↔ x ∈ l := by
  unfold dedupFirst
  rw [mem_foldl_dedupFirst]
  simp

theorem nodup_foldl_dedupFirst {α : Type} [DecidableEq α] :
    ∀ (l acc : List α), acc.Nodup →
      (l.foldl (fun acc x => if x ∈ acc then acc else acc ++ [x]) acc).Nodup := by
  intro l
  induction l with
  | nil => intro acc h; simpa using h
  | cons a tl ih =>
    intro acc hacc
    simp only [List.foldl_cons]
    by_cases h : a ∈ acc
    · rw [if_pos h]
      exact ih acc hacc
    · rw [if_neg h]
      refine ih _ (List.Nodup.append hacc (List.nodup_singleton a) ?_)
      rw [List.disjoint_left]
      intro b hb hb1
      rw [List.mem_singleton] at hb1
      exact h (hb1 ▸ hb)

theorem nodup_dedupFirst {α : Type} [DecidableEq α] (l : List α) :
    (dedupFirst l).Nodup :=
  nodup_foldl_dedupFirst l [] List.nodup_nil

/-- The length of the code's insertion-order qualifying-group list equals
the spec-side count of phases with at least 3 volatility observations. -/
theorem qualifyingGroups_length (vbp : List (MoonPhase × ℝ)) :
    (qualifyingGroups vbp).length = qualifyingPhaseCount vbp := by
  unfold qualifyingGroups qualifyingPhaseCount
  rw [List.filter_map, List.length_map]
  have hq : ∀ ph : MoonPhase,
      ((fun g : List ℝ => decide (3 ≤ g.length)) ∘
        (fun ph => (vbp.filter (fun pv => pv.1 = ph)).map Prod.snd)) ph =
      decide (3 ≤ (vbp.filter (fun pv => pv.1 = ph)).length) := by
    intro ph
    simp [Function.comp, List.length_map]
  rw [List.filter_congr (fun ph _ => hq ph)]
  refine List.Perm.length_eq ?_
  rw [List.perm_ext_iff_of_nodup (List.Nodup.filter _ (nodup_dedupFirst _))
    (List.Nodup.filter _ (by decide))]
  intro ph
  simp only [List.mem_filter, mem_dedupFirst, decide_eq_true_eq]
  constructor
  · rintro ⟨-, h3⟩
    exact ⟨mem_allPhases ph, h3⟩
  · rintro ⟨-, h3⟩
    refine ⟨?_, h3⟩
    have hlen : 0 < (vbp.filter (fun pv => pv.1 = ph)).length := by omega
    obtain ⟨pv, hpv⟩ := List.exists_mem_of_ne_nil
      (vbp.filter (fun pv => pv.1 = ph)) (by
        intro hnil
        rw [hnil] at hlen
        simp at hlen)
    obtain ⟨hmem, heq⟩ := List.mem_filter.mp hpv
    rw [List.mem_map]
    exact ⟨pv, hmem, of_decide_eq_true heq⟩

/-- C8 (amended): the phase ANOVA result is the computed `f_oneway` pair
exactly when the total number of volatility observations is at least 10
AND at least 2 phase groups have at least 3 observations each; in every
other case it is the default F = 0, p = 1. -/
theorem phase_anova_condition (ext : ExternalStats) (vbp : List (MoonPhase × ℝ)) :
    (perform_phase_anova ext vbp =
      if 10 ≤ vbp.length ∧ 2 ≤ qualifyingPhaseCount vbp
      then .computed (ext.f_oneway (qualifyingGroups vbp))
      else .default) ∧
    PhaseAnova.default.fp = (0, 1) := by
  refine ⟨?_, rfl⟩
  unfold perform_phase_anova
  have hq := qualifyingGroups_length vbp
  by_cases h1 : vbp.length < 10
  · rw [if_pos h1, if_neg (by omega)]
  · rw [if_neg h1]
    by_cases h2 : (qualifyingGroups vbp).length < 2
    · rw [if_pos h2, if_neg (by omega)]
    · rw [if_neg h2, if_pos (by omega)]

/-- Counterexample to C8 as stated: two phase groups of sizes 3 and 4
qualify, yet with only 7 total observations the ANOVA is the (0, 1)
default, not a computed result. -/
theorem phase_anova_counterexample :
    perform_phase_anova trivialStats exVbp = .default ∧
    2 ≤ qualifyingPhaseCount exVbp ∧
    PhaseAnova.default.fp = (0, 1) :=
  ⟨rfl, by decide, rfl⟩

/-- Witness for C8 (amended) at a concrete observation list. -/
theorem phase_anova_condition_witness :
    perform_phase_anova trivialStats exVbp =
      (if 10 ≤ exVbp.length ∧ 2 ≤ qualifyingPhaseCount exVbp
       then .computed (trivialStats.f_oneway (qualifyingGroups exVbp))
       else .default) :=
  (phase_anova_condition trivialStats exVbp).1

theorem mem_phaseKeyOrder (data : List CombinedDataPoint) (ph : MoonPhase) :
    ph ∈ phaseKeyOrder data := by
  unfold phaseKeyOrder
  simp only [List.mem_append]
  by_cases h : ph ∈ dedupFirst (data.map (·.phase_code))
  · exact Or.inl h
  · right
    rw [List.mem_filter]
    exact ⟨mem_allPhases ph, decide_eq_true h⟩

theorem phaseKeyOrder_nodup (data : List CombinedDataPoint) :
    (phaseKeyOrder data).Nodup := by
  unfold phaseKeyOrder
  refine List.Nodup.append (nodup_dedupFirst _) (List.Nodup.filter _ (by decide)) ?_
  rw [List.disjoint_left]
  intro ph hp hf
  obtain ⟨-, hdec⟩ := List.mem_filter.mp hf
  exact (of_decide_eq_true hdec) hp

/-- `phase_groups` holds all 8 phases as keys: every phase is read (and so
created) by the metric loop, whatever the data contains. -/
theorem phaseKeyOrder_length (data : List CombinedDataPoint) :
    (phaseKeyOrder data).length = 8 := by
  have hperm : List.Perm (phaseKeyOrder data) allPhases := by
    rw [List.perm_ext_iff_of_nodup (phaseKeyOrder_nodup data) (by decide)]
    intro ph
    exact iff_of_true (mem_phaseKeyOrder data ph) (mem_allPhases ph)
  rw [hperm.length_eq]
  rfl

/-- Soundness of the pairwise list: every recorded triple comes from two
phases with ≥ 3 observations, carries that pair's t-test p-value, and that
p-value is below 0.05/28 (k = 8 keys, so C(k,2) = 28). -/
theorem pairwise_sound (ext : ExternalStats) (data : List CombinedDataPoint)
    (t : MoonPhase × MoonPhase × ℚ) (ht : t ∈ pairwise_phase_comparisons ext data) :
    3 ≤ (volsOfPhase data t.1).length ∧ 3 ≤ (volsOfPhase data t.2.1).length ∧
    t.2.2 = (ext.ttest_ind (volsOfPhase data t.1) (volsOfPhase data t.2.1)).2 ∧
    t.2.2 < 5/100 / 28 := by
  unfold pairwise_phase_comparisons at ht
  rw [List.mem_flatMap] at ht
  obtain ⟨i, hi, ht⟩ := ht
  rw [List.mem_flatMap] at ht
  obtain ⟨j, hj, ht⟩ := ht
  have hilen : i < (phaseKeyOrder data).length := List.mem_range.mp hi
  have hjlen : j < (phaseKeyOrder data).length := by
    have := List.mem_range'_1.mp hj
    omega
  rw [List.getElem?_eq_getElem hilen, List.getElem?_eq_getElem hjlen] at ht
  have hb : t ∈ pairBody ext data (phaseKeyOrder data).length
      ((phaseKeyOrder data)[i]) ((phaseKeyOrder data)[j]) := ht
  unfold pairBody at hb
  by_cases h3 : 3 ≤ (volsOfPhase data ((phaseKeyOrder data)[i])).length ∧
      3 ≤ (volsOfPhase data ((phaseKeyOrder data)[j])).length
  · rw [if_pos h3] at hb
    simp only [] at hb
    by_cases hpv : (ext.ttest_ind (volsOfPhase data ((phaseKeyOrder data)[i]))
        (volsOfPhase data ((phaseKeyOrder data)[j]))).2 <
        5/100 / (((phaseKeyOrder data).length : ℚ) *
          (((phaseKeyOrder data).length : ℚ) - 1) / 2)
    · rw [if_pos hpv] at hb
      rw [List.mem_singleton] at hb
      subst hb
      have hk : ((phaseKeyOrder data).length : ℚ) = 8 := by
        rw [phaseKeyOrder_length data]
        norm_num
      rw [hk] at hpv
      norm_num at hpv
      refine ⟨h3.1, h3.2, rfl, ?_⟩
      norm_num
      exact hpv
    · rw [if_neg hpv] at hb
      cases hb
  · rw [if_neg h3] at hb
    cases hb

/-- Completeness of the pairwise list: a distinct pair of phases that both
have ≥ 3 observations and whose t-test p-value (in either orientation) is
below 0.05/28 is recorded. -/
theorem pairwise_complete (ext : ExternalStats) (data : List CombinedDataPoint)
    (ph1 ph2 : MoonPhase) (hne : ph1 ≠ ph2)
    (h1 : 3 ≤ (volsOfPhase data ph1).length)
    (h2 : 3 ≤ (volsOfPhase data ph2).length)
    (hp12 : (ext.ttest_ind (volsOfPhase data ph1) (volsOfPhase data ph2)).2 < 5/100 / 28)
    (hp21 : (ext.ttest_ind (volsOfPhase data ph2) (volsOfPhase data ph1)).2 < 5/100 / 28) :
    ∃ t ∈ pairwise_phase_comparisons ext data,
      (t.1 = ph1 ∧ t.2.1 = ph2) ∨ (t.1 = ph2 ∧ t.2.1 = ph1) := by
  obtain ⟨i, hgi⟩ := List.mem_iff_getElem?.mp (mem_phaseKeyOrder data ph1)
  obtain ⟨j, hgj⟩ := List.mem_iff_getElem?.mp (mem_phaseKeyOrder data ph2)
  have hij : i ≠ j := by
    intro h
    rw [h, hgj] at hgi
    exact hne (Option.some.inj hgi).symm
  have key : ∀ (a b : ℕ) (phA phB : MoonPhase), a < b →
      (phaseKeyOrder data)[a]? = some phA → (phaseKeyOrder data)[b]? = some phB →
      3 ≤ (volsOfPhase data phA).length → 3 ≤ (volsOfPhase data phB).length →
      (ext.ttest_ind (volsOfPhase data phA) (volsOfPhase data phB)).2 < 5/100 / 28 →
      (phA, phB, (ext.ttest_ind (volsOfPhase data phA) (volsOfPhase data phB)).2) ∈
        pairwise_phase_comparisons ext data := by
    intro a b phA phB hab hga hgb h3a h3b hpv
    have hblen : b < (phaseKeyOrder data).length := (List.getElem?_eq_some_iff.mp hgb).1
    unfold pairwise_phase_comparisons
    rw [List.mem_flatMap]
    refine ⟨a, List.mem_range.mpr (by omega), ?_⟩
    rw [List.mem_flatMap]
    refine ⟨b, List.mem_range'_1.mpr ⟨by omega, by omega⟩, ?_⟩
    rw [hga, hgb]
    show _ ∈ pairBody ext data (phaseKeyOrder data).length phA phB
    unfold pairBody
    rw [if_pos ⟨h3a, h3b⟩]
    simp only []
    have hk : ((phaseKeyOrder data).length : ℚ) = 8 := by
      rw [phaseKeyOrder_length data]
      norm_num
    rw [if_pos (by rw [hk]; norm_num at hpv ⊢; exact hpv)]
    exact List.mem_singleton.mpr rfl
  rcases lt_or_gt_of_ne hij with h | h
  · exact ⟨(ph1, ph2, (ext.ttest_ind (volsOfPhase data ph1) (volsOfPhase data ph2)).2),
      key i j ph1 ph2 h hgi hgj h1 h2 hp12, Or.inl ⟨rfl, rfl⟩⟩
  · exact ⟨(ph2, ph1, (ext.ttest_ind (volsOfPhase data ph2) (volsOfPhase data ph1)).2),
      key j i ph2 ph1 h hgj hgi h2 h1 hp21, Or.inr ⟨rfl, rfl⟩⟩

theorem analyze_by_phases_sig (ext : ExternalStats) (data : List CombinedDataPoint) :
    (analyze_by_phases ext data).significant_differences =
      if (analyze_by_phases ext data).anova_p_value < 5/100
      then pairwise_phase_comparisons ext data else [] := rfl

/-- C9 (amended): pairwise t-tests only run when the ANOVA p-value is
below 0.05 (else the list is empty); every recorded pair has ≥ 3
observations on both sides and its p-value below the Bonferroni threshold
`0.05 / C(k, 2)` where k is the number of `phase_groups` keys — always 8
(every phase key is created by the metric loop), so the threshold is
0.05/28, NOT 0.05 / C(#qualifying phases, 2); and every qualifying pair
below that threshold is recorded. -/
theorem pairwise_bonferroni (ext : ExternalStats) (data : List CombinedDataPoint) :
    (¬ (analyze_by_phases ext data).anova_p_value < 5/100 →
      (analyze_by_phases ext data).significant_differences = []) ∧
    (∀ t ∈ (analyze_by_phases ext data).significant_differences,
      3 ≤ (volsOfPhase data t.1).length ∧ 3 ≤ (volsOfPhase data t.2.1).length ∧
      t.2.2 = (ext.ttest_ind (volsOfPhase data t.1) (volsOfPhase data t.2.1)).2 ∧
      t.2.2 < 5/100 / 28) ∧
    ((analyze_by_phases ext data).anova_p_value < 5/100 →
      ∀ ph1 ph2, ph1 ≠ ph2 →
        3 ≤ (volsOfPhase data ph1).length → 3 ≤ (volsOfPhase data ph2).length →
        (ext.ttest_ind (volsOfPhase data ph1) (volsOfPhase data ph2)).2 < 5/100 / 28 →
        (ext.ttest_ind (volsOfPhase data ph2) (volsOfPhase data ph1)).2 < 5/100 / 28 →
        ∃ t ∈ (analyze_by_phases ext data).significant_differences,
          (t.1 = ph1 ∧ t.2.1 = ph2) ∨ (t.1 = ph2 ∧ t.2.1 = ph1)) ∧
    (phaseKeyOrder data).length = 8 := by
  refine ⟨?_, ?_, ?_, phaseKeyOrder_length data⟩
  · intro h
    rw [analyze_by_phases_sig, if_neg h]
  · intro t ht
    rw [analyze_by_phases_sig] at ht
    by_cases h : (analyze_by_phases ext data).anova_p_value < 5/100
    · rw [if_pos h] at ht
      exact pairwise_sound ext data t ht
    · rw [if_neg h] at ht
      cases ht
  · intro h ph1 ph2 hne h1 h2 hp12 hp21
    rw [analyze_by_phases_sig, if_pos h]
    exact pairwise_complete ext data ph1 ph2 hne h1 h2 hp12 hp21

/-- Witness for C9: with a non-significant ANOVA the pairwise list is
empty. -/
theorem pairwise_bonferroni_witness :
    (analyze_by_phases trivialStats ([] : List CombinedDataPoint)).significant_differences
      = [] := by
  have hp : (analyze_by_phases trivialStats ([] : List CombinedDataPoint)).anova_p_value
      = 1 := rfl
  exact (pairwise_bonferroni trivialStats ([] : List CombinedDataPoint)).1
    (by rw [hp]; norm_num)

/-- Counterexample to C9 as stated: exactly 2 phases qualify, so the
claim's threshold is 0.05 / C(2,2) = 0.05; the pair's t-test p-value
0.0213 is below it, the ANOVA is significant — yet nothing is recorded,
because the code divides by C(8,2) = 28 (all 8 phase keys), giving the
threshold 0.05/28 ≈ 0.0018. -/
theorem pairwise_bonferroni_counterexample :
    (analyze_by_phases exStats9 exData9).anova_p_value < 5/100 ∧
    3 ≤ (volsOfPhase exData9 .NEW).length ∧
    3 ≤ (volsOfPhase exData9 .FULL).length ∧
    qualifyingPhaseCount (volatilityByPhase exData9) = 2 ∧
    (exStats9.ttest_ind (volsOfPhase exData9 .NEW) (volsOfPhase exData9 .FULL)).2
      < 5/100 ∧
    (analyze_by_phases exStats9 exData9).significant_differences = [] := by
  have hp : (analyze_by_phases exStats9 exData9).anova_p_value = 1/100 := rfl
  refine ⟨by rw [hp]; norm_num, by decide, by decide, by decide, ?_, ?_⟩
  · show ((213 : ℚ)/10000) < 5/100
    norm_num
  · rcases hemp : (analyze_by_phases exStats9 exData9).significant_differences
      with _ | ⟨t, rest⟩
    · rfl
    · exfalso
      have hmem : t ∈ (analyze_by_phases exStats9 exData9).significant_differences := by
        rw [hemp]
        exact List.mem_cons_self t rest
      rw [analyze_by_phases_sig] at hmem
      by_cases hcond : (analyze_by_phases exStats9 exData9).anova_p_value < 5/100
      · rw [if_pos hcond] at hmem
        obtain ⟨-, -, hteq, hlt⟩ := pairwise_sound exStats9 exData9 t hmem
        rw [hteq] at hlt
        have hnum : ((213 : ℚ)/10000) < 5/100/28 := hlt
        norm_num at hnum
      · rw [if_neg hcond] at hmem
        cases hmem

/-! ## Claim about the group comparison (C10) -/

/-- C10: for groups of at least 3 values each, Cohen's d divides by the
pooled standard deviation only when it is strictly positive; when the
pooled standard deviation is zero the effect size is the literal 0 (no
division is performed). -/
theorem cohens_d_guard (ext : ExternalStats) (g1 g2 : List ℝ)
    (h1 : 3 ≤ g1.length) (h2 : 3 ≤ g2.length) :
    ∃ gc, compare_groups ext g1 g2 = some gc ∧
      0 ≤ pooledStd g1 g2 ∧
      (0 < pooledStd g1 g2 →
        gc.effect_size = (rMean g1 - rMean g2) / pooledStd g1 g2) ∧
      (pooledStd g1 g2 = 0 → gc.effect_size = 0) := by
  unfold compare_groups
  rw [if_neg (by omega)]
  simp only []
  refine ⟨_, rfl, Real.sqrt_nonneg _, ?_, ?_⟩
  · intro hp
    show (if 0 < pooledStd g1 g2
      then (rMean g1 - rMean g2) / pooledStd g1 g2 else 0) = _
    rw [if_pos hp]
  · intro hp
    show (if 0 < pooledStd g1 g2
      then (rMean g1 - rMean g2) / pooledStd g1 g2 else 0) = 0
    rw [if_neg (by rw [hp]; exact lt_irrefl 0)]

/-- Witness for C10: two constant groups have pooled standard deviation 0
and effect size 0. -/
theorem cohens_d_guard_witness :
    (3 ≤ ([1, 1, 1] : List ℝ).length ∧ 3 ≤ ([2, 2, 2] : List ℝ).length ∧
      pooledStd [1, 1, 1] [2, 2, 2] = 0) ∧
    ∃ gc, compare_groups trivialStats [1, 1, 1] [2, 2, 2] = some gc ∧
      0 ≤ pooledStd [1, 1, 1] [2, 2, 2] ∧
      (0 < pooledStd [1, 1, 1] [2, 2, 2] →
        gc.effect_size =
          (rMean [1, 1, 1] - rMean [2, 2, 2]) / pooledStd [1, 1, 1] [2, 2, 2]) ∧
      (pooledStd [1, 1, 1] [2, 2, 2] = 0 → gc.effect_size = 0) := by
  have hs1 : rSampleStd [1, 1, 1] = 0 := by
    have harg : ((([1, 1, 1] : List ℝ).map (fun x => (x - rMean [1, 1, 1]) ^ 2)).sum) /
        ((([1, 1, 1] : List ℝ).length : ℝ) - 1) = 0 := by
      norm_num [rMean]
    unfold rSampleStd
    rw [harg, Real.sqrt_zero]
  have hs2 : rSampleStd [2, 2, 2] = 0 := by
    have harg : ((([2, 2, 2] : List ℝ).map (fun x => (x - rMean [2, 2, 2]) ^ 2)).sum) /
        ((([2, 2, 2] : List ℝ).length : ℝ) - 1) = 0 := by
      norm_num [rMean]
    unfold rSampleStd
    rw [harg, Real.sqrt_zero]
  have hpool : pooledStd [1, 1, 1] [2, 2, 2] = 0 := by
    unfold pooledStd
    rw [hs1, hs2]
    norm_num
  exact ⟨⟨by decide, by decide, hpool⟩,
    cohens_d_guard trivialStats [1, 1, 1] [2, 2, 2] (by decide) (by decide)⟩

end StockMoon
